import Mathlib

/-!
# Fruitie AI chat widget: a shallow embedding

The chat widget is the IIFE `initFruitieAI` of `src/frontend/script.js` (the copies in
`buyer/buyerscript.js` and `seller/sellerscript.js` are the same code).

* The `.ai-message` children of `messagesEl` are a `List Message`, in document order.
* The module variables `isOpen`, `isLoading`, `welcomeShown` and `inputEl.value` are fields of
  `State`; a suspended `handleSend` activation (one that awaits `sendToAI`) is an entry of
  `State.pending`.
* What a listener does to the outside world (a node appended to the log, a `fetch` call, a
  `console.error`) is returned as a list of `Effect`s next to the new state.
* `formatTime(new Date())` is read from the environment: every event that can append a message
  carries the formatted clock reading `now`.
* DOM writes that no control flow reads back (`hidden`, `disabled`, `aria-expanded`, focus,
  scrolling) are left out.

After the widget come the helpers `isValidPhone` (`src/frontend/script.js`) and `escapeHtml`
(`src/frontend/seller/sellerscript.js`), the user model of `src/models/users.js`, the profile
route of `src/server.js`, `detectPage`, the JavaScript values that `escapeHtml` can receive,
and `validateSellerForm` (`src/frontend/seller/sellerscript.js`).
-/

namespace Fruittie

/-! ## Constants -/

/-- The constant `MAX_HISTORY = 50`: the maximum of messages kept in the DOM. -/
def MAX_HISTORY : Nat := 50

/-- The text of the error bubble appended by the `catch` block of `handleSend`. -/
def FALLBACK_TEXT : String :=
  "⚠️ Sorry, I couldn't reach the AI service. Please try again shortly."

/-- The value of the property `buyer` of the object literal `greetings`. -/
def BUYER_GREETING : String :=
  "👋 Hi! I'm your Fruitie AI assistant. I can help you find the best fruits, compare seller prices, or estimate quantities. What are you looking for today?"

/-- The value of the property `seller` of the object literal `greetings`. -/
def SELLER_GREETING : String :=
  "👋 Hi! I'm your Fruitie AI assistant. I can help you price your produce, find transport options, or understand payment methods. How can I help?"

/-- The value of the property `home` of the object literal `greetings`. -/
def HOME_GREETING : String :=
  "👋 Welcome to Fruitie! I'm your AI assistant. Ask me anything about buying or selling fresh fruit on the platform."

/-- The properties that every object literal inherits from `Object.prototype`, each with the
string that `bubble.textContent = value` stores for its value: a built-in function prints as
`function name() { [native code] }` (the form of V8 and JavaScriptCore), and `__proto__`
reads the prototype object itself, which prints as `[object Object]`. Every one of these
values is an object, hence truthy, and its string is not empty. -/
def OBJECT_PROTOTYPE : List (String × String) :=
  [("constructor", "function Object() \x7b [native code] \x7d"),
   ("__defineGetter__", "function __defineGetter__() \x7b [native code] \x7d"),
   ("__defineSetter__", "function __defineSetter__() \x7b [native code] \x7d"),
   ("hasOwnProperty", "function hasOwnProperty() \x7b [native code] \x7d"),
   ("__lookupGetter__", "function __lookupGetter__() \x7b [native code] \x7d"),
   ("__lookupSetter__", "function __lookupSetter__() \x7b [native code] \x7d"),
   ("isPrototypeOf", "function isPrototypeOf() \x7b [native code] \x7d"),
   ("propertyIsEnumerable", "function propertyIsEnumerable() \x7b [native code] \x7d"),
   ("toString", "function toString() \x7b [native code] \x7d"),
   ("valueOf", "function valueOf() \x7b [native code] \x7d"),
   ("__proto__", "[object Object]"),
   ("toLocaleString", "function toLocaleString() \x7b [native code] \x7d")]

/-- The object literal `greetings` of `showWelcome`, as `greetings[tag]` sees it: its three own
properties first, then the properties it inherits from `Object.prototype`. -/
def greetings : List (String × String) :=
  [("buyer", BUYER_GREETING), ("seller", SELLER_GREETING), ("home", HOME_GREETING)]
    ++ OBJECT_PROTOTYPE

/-! ## Strings -/

/-- The code points that `String.prototype.trim` strips: ECMAScript WhiteSpace and
LineTerminator. -/
def jsIsWhiteSpace (c : Char) : Bool :=
  let n := c.toNat
  n == 0x09 || n == 0x0A || n == 0x0B || n == 0x0C || n == 0x0D || n == 0x20 ||
  n == 0xA0 || n == 0x1680 || (0x2000 ≤ n && n ≤ 0x200A) ||
  n == 0x2028 || n == 0x2029 || n == 0x202F || n == 0x205F || n == 0x3000 || n == 0xFEFF

/-- The JavaScript `s.trim()`. -/
def jsTrim (s : String) : String :=
  String.mk ((s.data.dropWhile jsIsWhiteSpace).reverse.dropWhile jsIsWhiteSpace).reverse

/-- The JavaScript `a || b` for an operand `a` that is `undefined` or given by its string (a
string, or an object, which is truthy and never prints as the empty string): `b` when `a` is
falsy. -/
def jsOr (a : Option String) (b : String) : String :=
  match a with
  | some s => if s = "" then b else s
  | none => b

/-! ## The message log -/

/-- The `role` argument of `appendMessage`: `'ai'`, `'user'` or `'error'`. -/
inductive Role
  | ai
  | user
  | error
  deriving DecidableEq, Repr

/-- One `.ai-message` wrapper: the role that fixes its classes, the bubble text and the
timestamp text. -/
structure Message where
  role : Role
  text : String
  time : String
  deriving DecidableEq, Repr

/-- A DOM node of the snapshot taken by `querySelectorAll`: the message together with its
index in the snapshot, which is its identity during one run of `pruneMessages`. -/
abbrev Node := Nat × Message

/-- The call `messagesEl.removeChild(node)`: the children without that node. -/
def removeChild (children : List Node) (node : Node) : List Node :=
  children.filter (fun c => c.1 != node.1)

/-- The body of the loop of `pruneMessages` at index `i`:
`messagesEl.removeChild(messages[i])`. -/
def pruneStep (messages : List Node) (children : List Node) (i : Nat) : List Node :=
  match messages[i]? with
  | some node => removeChild children node
  | none => children

/-- The function `pruneMessages()`: the log after the loop has removed `messages[0 .. excess-1]`. -/
def pruneMessages (log : List Message) : List Message :=
  let messages : List Node := log.enum
  if messages.length > MAX_HISTORY then
    let excess := messages.length - MAX_HISTORY
    ((List.range excess).foldl (pruneStep messages) messages).map Prod.snd
  else
    log

/-! ## Transport -/

/-- A thrown or rejected JavaScript error value. -/
structure JsError where
  name : String
  message : String
  deriving DecidableEq, Repr

/-- The value that `response.json()` resolves with. -/
inductive JsonValue
  | null
  | bool (b : Bool)
  | num (q : ℚ)
  | str (s : String)
  | arr (xs : List JsonValue)
  | obj (props : List (String × JsonValue))

/-- The response that `fetch` resolves with: `ok`, `status`, `statusText`, and what
`response.json()` settles with. -/
structure Response where
  ok : Bool
  status : Nat
  statusText : String
  json : Except JsError JsonValue

/-- How the `fetch` of `sendToAI` settles. -/
inductive FetchResult
  | rejected (err : JsError)
  | resolved (response : Response)

/-- The `payload` object of `sendToAI`, serialised as the request body. -/
structure Payload where
  message : String
  page : String
  deriving DecidableEq, Repr

/-- The test `!data` on the parsed body. -/
def JsonValue.falsy : JsonValue → Bool
  | .null => true
  | .bool b => !b
  | .num q => q == 0
  | .str s => s == ""
  | .arr _ => false
  | .obj _ => false

/-- The value of `data.reply` when `typeof data.reply === 'string'`. -/
def JsonValue.replyString : JsonValue → Option String
  | .obj props =>
    match props.lookup "reply" with
    | some (.str s) => some s
    | _ => none
  | _ => none

/-- The function `sendToAI(message)` up to its `fetch` call: the payload it posts. -/
def sendToAI_payload (PAGE_CONTEXT : String) (message : String) : Payload :=
  { message := message, page := PAGE_CONTEXT }

/-- The function `sendToAI(message)` after its `fetch` has settled: the reply it returns or the error it
throws. -/
def sendToAI_result (r : FetchResult) : Except JsError String :=
  match r with
  | .rejected err => .error err
  | .resolved response =>
    if !response.ok then
      .error ⟨"Error", "Server error: " ++ toString response.status ++ " " ++ response.statusText⟩
    else
      match response.json with
      | .error err => .error err
      | .ok data =>
        match (if data.falsy then none else data.replyString) with
        | none => .error ⟨"Error", "Unexpected response format from AI service."⟩
        | some reply => .ok reply

/-! ## Widget state and listeners -/

/-- What a listener does to the world outside the module variables. -/
inductive Effect
  | appended (m : Message)
  | fetch (body : Payload)
  | consoleError (err : JsError)
  deriving DecidableEq, Repr

/-- The module state of the widget. -/
structure State where
  isOpen : Bool
  isLoading : Bool
  welcomeShown : Bool
  messages : List Message
  inputValue : String
  pending : List Payload
  deriving DecidableEq, Repr

/-- The state when the IIFE has run: closed, idle, welcome not shown, no request issued. -/
def initialState (messages : List Message) (inputValue : String) : State :=
  { isOpen := false, isLoading := false, welcomeShown := false,
    messages := messages, inputValue := inputValue, pending := [] }

/-- The function `openModal()`. -/
def openModal (s : State) : State := { s with isOpen := true }

/-- The function `closeModal()`. -/
def closeModal (s : State) : State := { s with isOpen := false }

/-- The function `toggleModal()`. -/
def toggleModal (s : State) : State :=
  if s.isOpen then closeModal s else openModal s

/-- The function `appendMessage(role, text)`: append the wrapper, then prune. -/
def appendMessage (now : String) (role : Role) (text : String) (s : State) :
    State × List Effect :=
  let wrapper : Message := { role := role, text := text, time := now }
  ({ s with messages := pruneMessages (s.messages ++ [wrapper]) }, [Effect.appended wrapper])

/-- A sequence of `appendMessage` calls; a call with clock reading `now`, role `role` and text
`text` is given as the record `⟨role, text, now⟩`. -/
def appendMessages (s : State) (calls : List Message) : State :=
  calls.foldl (fun st m => (appendMessage m.time m.role m.text st).1) s

/-- The function `setLoading(loading)`. -/
def setLoading (loading : Bool) (s : State) : State := { s with isLoading := loading }

/-- The function `handleSend()` up to `await sendToAI(text)`: the guard, the optimistic
append, the input reset, `setLoading(true)` and the `fetch` call of `sendToAI`. -/
def handleSend (PAGE_CONTEXT : String) (now : String) (s : State) : State × List Effect :=
  let text := jsTrim s.inputValue
  if text = "" ∨ s.isLoading = true then (s, [])
  else
    let (s1, e1) := appendMessage now Role.user text s
    let s2 := { s1 with inputValue := "" }
    let s3 := setLoading true s2
    let payload := sendToAI_payload PAGE_CONTEXT text
    ({ s3 with pending := s3.pending ++ [payload] }, e1 ++ [Effect.fetch payload])

/-- The function `handleSend()` from the point where `sendToAI` has settled: the `try` continuation or the
`catch` block, then `finally`. -/
def handleSend_resume (now : String) (r : FetchResult) (s : State) : State × List Effect :=
  match sendToAI_result r with
  | .ok reply =>
    let (s1, e1) := appendMessage now Role.ai reply s
    (setLoading false s1, e1)
  | .error err =>
    let (s1, e1) := appendMessage now Role.error FALLBACK_TEXT s
    (setLoading false s1, Effect.consoleError err :: e1)

/-- The function `showWelcome()`. -/
def showWelcome (PAGE_CONTEXT : String) (now : String) (s : State) : State × List Effect :=
  if s.welcomeShown then (s, [])
  else
    let s1 := { s with welcomeShown := true }
    appendMessage now Role.ai (jsOr (greetings.lookup PAGE_CONTEXT) HOME_GREETING) s1

/-- The document-level `keydown` listener. -/
def onDocumentKeydown (key : String) (s : State) : State :=
  if key = "Escape" ∧ s.isOpen = true then closeModal s else s

/-- The events the widget listens to. -/
inductive Event
  | fabClick (now : String)
  | fabKeydown (key : String)
  | closeClick
  | documentKeydown (key : String)
  | sendClick (now : String)
  | inputKeydown (key : String) (shiftKey : Bool) (now : String)
  | inputEdit (value : String)
  | settle (i : Nat) (r : FetchResult) (now : String)

/-- One event: the listeners registered for it run in registration order; a `keydown` on the
FAB or the input bubbles to the document listener; `settle i r` resumes the suspended
`handleSend` whose request is `pending[i]`. -/
def step (PAGE_CONTEXT : String) (s : State) : Event → State × List Effect
  | .fabClick now =>
    let s1 := toggleModal s
    if s1.isOpen then showWelcome PAGE_CONTEXT now s1 else (s1, [])
  | .fabKeydown key =>
    let s1 := if key = "Enter" ∨ key = " " then toggleModal s else s
    (onDocumentKeydown key s1, [])
  | .closeClick => (closeModal s, [])
  | .documentKeydown key => (onDocumentKeydown key s, [])
  | .sendClick now => handleSend PAGE_CONTEXT now s
  | .inputKeydown key shiftKey now =>
    let (s1, e1) := if key = "Enter" ∧ shiftKey = false then handleSend PAGE_CONTEXT now s else (s, [])
    (onDocumentKeydown key s1, e1)
  | .inputEdit value => ({ s with inputValue := value }, [])
  | .settle i r now =>
    if i < s.pending.length then
      handleSend_resume now r { s with pending := s.pending.eraseIdx i }
    else (s, [])

/-- The state after a sequence of events. -/
def run (PAGE_CONTEXT : String) (s : State) : List Event → State
  | [] => s
  | e :: es => run PAGE_CONTEXT (step PAGE_CONTEXT s e).1 es

/-- The effects of a sequence of events, one entry per event. -/
def trace (PAGE_CONTEXT : String) (s : State) : List Event → List (List Effect)
  | [] => []
  | e :: es => (step PAGE_CONTEXT s e).2 :: trace PAGE_CONTEXT (step PAGE_CONTEXT s e).1 es

/-- The text that `showWelcome` passes to `appendMessage`: `greetings[PAGE_CONTEXT] ||
greetings.home`. -/
def greetingText (PAGE_CONTEXT : String) : String :=
  jsOr (greetings.lookup PAGE_CONTEXT) HOME_GREETING

/-- Whether an effect is an assistant-role message with the text of the greeting, appended to
the log. -/
def isGreetingAppend (PAGE_CONTEXT : String) : Effect → Bool
  | .appended m => m.role == Role.ai && m.text == greetingText PAGE_CONTEXT
  | _ => false

/-- The message that the `try` continuation of `handleSend` appends at an event: the reply that
`sendToAI` returns when a transport settlement delivers one; no other event delivers a reply. -/
def deliveredReply : Event → Option Message
  | .settle _ r now =>
    match sendToAI_result r with
    | .ok reply => some ⟨Role.ai, reply, now⟩
    | .error _ => none
  | _ => none

/-- The number of greetings among the effects of one event, whatever the event is: the
assistant-role messages with the text of the greeting that were appended, the reply of the
transport itself (which may have any text) set aside. -/
def greetingAppends (PAGE_CONTEXT : String) (e : Event) (effects : List Effect) : Nat :=
  match deliveredReply e with
  | some reply => (effects.erase (Effect.appended reply)).countP (isGreetingAppend PAGE_CONTEXT)
  | none => effects.countP (isGreetingAppend PAGE_CONTEXT)

/-- The number of greetings appended to the log during a run, over all its events. -/
def welcomeCount (PAGE_CONTEXT : String) (s : State) : List Event → Nat
  | [] => 0
  | e :: es =>
    greetingAppends PAGE_CONTEXT e (step PAGE_CONTEXT s e).2
      + welcomeCount PAGE_CONTEXT (step PAGE_CONTEXT s e).1 es

/-! ## Phone numbers -/

/-- A regular expression, as far as the pattern of `isValidPhone` needs one: the empty
expression, a literal character, a character class, concatenation, alternation and `?`. -/
inductive Regex
  | empty
  | char (c : Char)
  | cls (p : Char → Bool)
  | seq (a b : Regex)
  | alt (a b : Regex)
  | opt (a : Regex)

/-- Every way in which `re` matches at the start of `cs`: what is left of `cs` after each
match, in the order in which a backtracking matcher tries them. -/
def Regex.run : Regex → List Char → List (List Char)
  | .empty, cs => [cs]
  | .char c, cs =>
    match cs with
    | x :: xs => if x = c then [xs] else []
    | [] => []
  | .cls p, cs =>
    match cs with
    | x :: xs => if p x then [xs] else []
    | [] => []
  | .seq a b, cs => (a.run cs).flatMap b.run
  | .alt a b, cs => a.run cs ++ b.run cs
  | .opt a, cs => a.run cs ++ [cs]

/-- The quantifier `{n}`: `n` copies in sequence. -/
def Regex.times (a : Regex) : Nat → Regex
  | 0 => .empty
  | n + 1 => .seq a (a.times n)

/-- The call `/^re$/.test(s)`: some match of `re` at the start of `s` ends at the end of
`s`. -/
def Regex.test (re : Regex) (s : List Char) : Bool :=
  (re.run s).any List.isEmpty

/-- The class `\d` of a JavaScript regular expression: `0` to `9`. -/
def jsIsDigit (c : Char) : Bool :=
  '0' ≤ c && c ≤ '9'

/-- The pattern `(\+?254|0)[17]\d{8}` between the anchors of the regular expression of
`isValidPhone`. -/
def PHONE_PATTERN : Regex :=
  .seq
    (.alt (.seq (.opt (.char '+')) (.seq (.char '2') (.seq (.char '5') (.char '4')))) (.char '0'))
    (.seq (.cls (fun c => c = '1' || c = '7')) ((Regex.cls jsIsDigit).times 8))

/-- The call `phone.replace(/\s+/g, '')`: the string without its whitespace. -/
def stripWhiteSpace (phone : String) : List Char :=
  phone.data.filter (fun c => !jsIsWhiteSpace c)

/-- The function `isValidPhone(phone)`:
`/^(\+?254|0)[17]\d{8}$/.test(phone.replace(/\s+/g, ''))`. -/
def isValidPhone (phone : String) : Bool :=
  PHONE_PATTERN.test (stripWhiteSpace phone)

/-- The format as the doc comment of `isValidPhone` words it: `07xxxxxxxx` or
`+2547xxxxxxxx`, the prefix followed by exactly 8 decimal digits. -/
def kenyanFormatAsDocumented (cs : List Char) : Bool :=
  match cs with
  | '0' :: '7' :: ds => ds.length == 8 && ds.all jsIsDigit
  | '+' :: '2' :: '5' :: '4' :: '7' :: ds => ds.length == 8 && ds.all jsIsDigit
  | _ => false

/-! ## HTML escaping -/

/-- The call `str.replace(/c/g, sub)` for a pattern that is the single character `c`. -/
def replaceAll (c : Char) (sub : String) (str : String) : String :=
  String.mk (str.data.flatMap (fun x => if x = c then sub.data else [x]))

/-- The function `escapeHtml(str)` on a string: the five replacements, in the order of the
source. -/
def escapeHtml (str : String) : String :=
  replaceAll '\'' "&#039;"
    (replaceAll '"' "&quot;"
      (replaceAll '>' "&gt;"
        (replaceAll '<' "&lt;"
          (replaceAll '&' "&amp;" str))))

/-- The five entities that `escapeHtml` writes. -/
def HTML_ENTITIES : List String := ["&amp;", "&lt;", "&gt;", "&quot;", "&#039;"]

/-- What the five passes of `escapeHtml` together make of one character of the input. -/
def escapeHtmlChar (x : Char) : List Char :=
  if x = '&' then "&amp;".data
  else if x = '<' then "&lt;".data
  else if x = '>' then "&gt;".data
  else if x = '"' then "&quot;".data
  else if x = '\'' then "&#039;".data
  else [x]

/-! ## The user model (`src/models/users.js`)

The schema options (`required`, `trim`, `lowercase`, `minlength`, `enum`, `default`, `unique`)
and `save` are Mongoose's, `genSalt`, `hash` and `compare` are bcryptjs's: they are modelled
here as their documentation describes them. The `timestamps` option is left out. -/

/-- The functions that `users.js` relies on and that are neither code of the repository nor
modelled further: `String.prototype.toLowerCase` (the `lowercase` setter) and the
Blowfish-based digest of bcrypt, which maps the key bytes and the 29-character salt string
(version, cost, salt) to the last 31 characters of the hash string. -/
structure Platform where
  toLowerCase : String → String
  bcryptDigest : List UInt8 → String → String

/-- The JavaScript `s.length`: the number of UTF-16 code units. -/
def jsLength (s : String) : Nat :=
  (s.data.map (fun c => if c.toNat < 0x10000 then 1 else 2)).sum

/-- The UTF-8 bytes of a string. -/
def utf8Bytes (s : String) : List UInt8 :=
  s.data.flatMap String.utf8EncodeChar

/-- The 72 key bytes that bcrypt feeds to Blowfish: it reads the UTF-8 bytes of the password
followed by a NUL byte cyclically, 18 words of 4 bytes, so nothing after the first 72 bytes of
the password is ever read. -/
def bcryptKey (s : String) : List UInt8 :=
  ((List.replicate 72 (utf8Bytes s ++ [0])).flatten).take 72

/-- The call `bcrypt.hash(s, salt)`: the salt string followed by the digest. -/
def bcryptHash (env : Platform) (s : String) (salt : String) : String :=
  salt ++ env.bcryptDigest (bcryptKey s) salt

/-- The call `bcrypt.compare(s, hash)`: false unless `hash` has 60 characters, else `s` is
hashed with `hash.substr(0, 29)` as salt and the result compared with `hash`. -/
def bcryptCompare (env : Platform) (s : String) (hash : String) : Bool :=
  hash.length == 60 && bcryptHash env s (String.mk (hash.data.take 29)) == hash

/-- The object given to `new User(...)` or `User.create(...)`: each path absent or a
string. -/
structure UserInput where
  name : Option String
  email : Option String
  password : Option String
  location : Option String
  phoneNumber : Option String
  role : Option String
  deriving DecidableEq, Repr

/-- A document of the `User` model: its `_id`, the paths of `userSchema`, whether it is new,
and the paths that Mongoose has marked as modified. -/
structure User where
  id : Nat
  name : Option String
  email : Option String
  password : Option String
  location : Option String
  phoneNumber : Option String
  role : Option String
  isNew : Bool
  modifiedPaths : List String
  deriving DecidableEq, Repr

/-- The paths of an input that are set. -/
def UserInput.paths (input : UserInput) : List String :=
  (if input.name.isSome then ["name"] else []) ++
  (if input.email.isSome then ["email"] else []) ++
  (if input.password.isSome then ["password"] else []) ++
  (if input.location.isSome then ["location"] else []) ++
  (if input.phoneNumber.isSome then ["phoneNumber"] else []) ++
  (if input.role.isSome then ["role"] else [])

/-- The call `new User(input)`: the setters of the schema run (`trim` on `name`, `lowercase` on
`email`), `role` gets its default `"user"` when absent, and every path that was set is marked
modified. -/
def newUser (env : Platform) (id : Nat) (input : UserInput) : User :=
  { id := id,
    name := input.name.map jsTrim,
    email := input.email.map env.toLowerCase,
    password := input.password,
    location := input.location,
    phoneNumber := input.phoneNumber,
    role := some (input.role.getD "user"),
    isNew := true,
    modifiedPaths := input.paths }

/-- The method `this.isModified(path)`. -/
def User.isModified (doc : User) (path : String) : Bool :=
  doc.modifiedPaths.contains path

/-- The validator of `required: true` on a string path: the value is a non-empty string. -/
def requiredOk (v : Option String) : Bool :=
  match v with
  | some s => s != ""
  | none => false

/-- The validator of `minlength: n`: it is skipped for an absent value. -/
def minlengthOk (n : Nat) (v : Option String) : Bool :=
  match v with
  | some s => decide (n ≤ jsLength s)
  | none => true

/-- The validator of `enum: values`: it is skipped for an absent value. -/
def enumOk (values : List String) (v : Option String) : Bool :=
  match v with
  | some s => values.contains s
  | none => true

/-- Validation of a document against `userSchema`: the paths that fail a validator. -/
def validate (doc : User) : List String :=
  (if requiredOk doc.name then [] else ["name"]) ++
  (if requiredOk doc.email then [] else ["email"]) ++
  (if requiredOk doc.password && minlengthOk 6 doc.password then [] else ["password"]) ++
  (if minlengthOk 3 doc.location then [] else ["location"]) ++
  (if minlengthOk 6 doc.phoneNumber then [] else ["phoneNumber"]) ++
  (if enumOk ["user", "admin"] doc.role then [] else ["role"])

/-- How `save` fails: Mongoose's `ValidationError` with the failing paths, the duplicate-key
error of the unique index, or an error thrown by the pre-save hook. -/
inductive SaveError
  | validation (paths : List String)
  | duplicateKey (path : String)
  | hook (message : String)
  deriving DecidableEq, Repr

/-- The hook `userSchema.pre("save", ...)`: nothing when `password` is not modified; else
`this.password = await bcrypt.hash(this.password, salt)` with `salt` the result of
`bcrypt.genSalt(10)`. `bcrypt.hash` rejects an argument that is not a string. -/
def preSave (env : Platform) (salt : String) (doc : User) : Except SaveError User :=
  if !doc.isModified "password" then .ok doc
  else
    match doc.password with
    | some password => .ok { doc with password := some (bcryptHash env password salt) }
    | none => .error (.hook "Illegal arguments: undefined, string")

/-- The method `userSchema.methods.matchPassword`:
`bcrypt.compare(enteredPassword, this.password)`. -/
def matchPassword (env : Platform) (enteredPassword : String) (doc : User) :
    Except SaveError Bool :=
  match doc.password with
  | some password => .ok (bcryptCompare env enteredPassword password)
  | none => .error (.hook "Illegal arguments: string, undefined")

/-- The call `doc.save()` on the collection `db`: validation runs first, then the pre-save
hook, then the document is inserted (when new) or its stored version replaced, unless the
unique index on `email` refuses it; a saved document is no longer new and has no modified
path. -/
def save (env : Platform) (salt : String) (db : List User) (doc : User) :
    Except SaveError (List User × User) :=
  if validate doc ≠ [] then .error (.validation (validate doc))
  else
    match preSave env salt doc with
    | .error e => .error e
    | .ok hashed =>
      let stored : User := { hashed with isNew := false, modifiedPaths := [] }
      if hashed.isNew then
        if db.any (fun u => u.email == hashed.email) then .error (.duplicateKey "email")
        else .ok (db ++ [stored], stored)
      else
        if hashed.isModified "email" &&
            db.any (fun u => u.id != hashed.id && u.email == hashed.email) then
          .error (.duplicateKey "email")
        else .ok (db.map (fun u => if u.id = hashed.id then stored else u), stored)

/-- The call `User.create(input)`: `new User(input).save()`. -/
def createUser (env : Platform) (salt : String) (id : Nat) (db : List User)
    (input : UserInput) : Except SaveError (List User × User) :=
  save env salt db (newUser env id input)

/-- A platform to evaluate the model on: ASCII lowercasing, and a digest that spells the first
31 key bytes as characters. -/
def samplePlatform : Platform :=
  { toLowerCase := fun s => String.mk (s.data.map Char.toLower),
    bcryptDigest := fun key _ =>
      String.mk (((key.map (fun b => Char.ofNat b.toNat)) ++ List.replicate 31 '.').take 31) }

/-! ## The profile route (`src/server.js`)

`server.js` registers `app.get("/api/profile", protect, handler)`. The middleware `protect`
(`src/middleware/authMiddleware.js`) and the login route that mints tokens
(`routes/authroutes.js`) are not among the sources; they are modelled from the specification. -/

/-- Modelled from the spec: the claims of a session token, missing with
`routes/authroutes.js` ("a signed token embedding user id and role with an expiry"). -/
structure TokenClaims where
  userId : Nat
  role : Option String
  expiresAt : Nat
  deriving DecidableEq, Repr

/-- Modelled from the spec: a session token, missing with `routes/authroutes.js`: its claims
and the signature over them. -/
structure Token where
  claims : TokenClaims
  signature : String
  deriving DecidableEq, Repr

/-- Modelled from the spec: the identity that `authenticate` returns, missing with
`src/middleware/authMiddleware.js` (the claims that re-identify the user). -/
structure UserIdentity where
  userId : Nat
  role : Option String
  deriving DecidableEq, Repr

/-- Modelled from the spec: the public record of a user, missing with
`src/middleware/authMiddleware.js` ("the authenticated user's public record", the "record
minus password"). -/
structure PublicUser where
  id : Nat
  name : Option String
  email : Option String
  location : Option String
  phoneNumber : Option String
  role : Option String
  deriving DecidableEq, Repr

/-- Modelled from the spec: the public fields of a stored user, missing with
`src/middleware/authMiddleware.js`. -/
def User.toPublic (u : User) : PublicUser :=
  { id := u.id, name := u.name, email := u.email, location := u.location,
    phoneNumber := u.phoneNumber, role := u.role }

/-- Modelled from the spec: the minting of a token at login, missing with
`routes/authroutes.js` ("mints a signed token embedding user id and role with an expiry");
`sign` is the signature under the server's secret, `ttl` the configured duration. -/
def mintToken (sign : TokenClaims → String) (now ttl : Nat) (u : User) : Token :=
  { claims := { userId := u.id, role := u.role, expiresAt := now + ttl },
    signature := sign { userId := u.id, role := u.role, expiresAt := now + ttl } }

/-- Modelled from the spec: `authenticate(token) → UserIdentity | fails(Unauthorized)`,
missing with `src/middleware/authMiddleware.js` ("verifies signature and expiry"; "validity is
solely a function of signature and expiry"). `none` is `Unauthorized`. -/
def authenticate (sign : TokenClaims → String) (now : Nat) (token : Token) :
    Option UserIdentity :=
  if token.signature ≠ sign token.claims then none
  else if token.claims.expiresAt ≤ now then none
  else some { userId := token.claims.userId, role := token.claims.role }

/-- A request to the profile route: the bearer token of its `Authorization` header, if any. -/
structure Request where
  token : Option Token
  deriving DecidableEq, Repr

/-- What a middleware does: it ends the request as unauthorized, or calls `next()` with
`req.user` set. -/
inductive Guard
  | unauthorized
  | next (user : PublicUser)
  deriving DecidableEq, Repr

/-- Modelled from the spec: the middleware `protect`, missing with
`src/middleware/authMiddleware.js`: "requires bearer-style token", "unauthorized without a
valid token" ("missing/invalid/expired token, surfaced as access-denied"); on success the
request carries the authenticated user's public record. -/
def protect (sign : TokenClaims → String) (now : Nat) (db : List User) (req : Request) :
    Guard :=
  match req.token with
  | none => .unauthorized
  | some token =>
    match authenticate sign now token with
    | none => .unauthorized
    | some identity =>
      match db.find? (fun u => u.id == identity.userId) with
      | none => .unauthorized
      | some u => .next u.toPublic

/-- The response to a request of the profile route. -/
inductive RouteResponse
  | unauthorized
  | json (body : PublicUser)
  deriving DecidableEq, Repr

/-- The route `app.get("/api/profile", protect, (req, res) => { res.json(req.user); })`: the
handler runs only when `protect` has called `next()`. -/
def profileRoute (sign : TokenClaims → String) (now : Nat) (db : List User) (req : Request) :
    RouteResponse :=
  match protect sign now db req with
  | .unauthorized => .unauthorized
  | .next user => .json user

/-! ## Page context -/

/-- The JavaScript `s.includes(sub)`: `sub` starts at some position of `s`. -/
def jsIncludes (s sub : String) : Bool :=
  s.data.tails.any (fun t => sub.data.isPrefixOf t)

/-- The function `detectPage()` applied to `window.location.pathname`; its result is the
constant `PAGE_CONTEXT`. -/
def detectPage (path : String) : String :=
  if jsIncludes path "buyer" then "buyer"
  else if jsIncludes path "seller" then "seller"
  else "home"

/-! ## JavaScript values -/

/-- A JavaScript number: `NaN`, the infinities, or a finite value. -/
inductive JsNumber
  | nan
  | negInfinity
  | finite (q : ℚ)
  | posInfinity
  deriving DecidableEq

/-- The test `isNaN(n)`. -/
def JsNumber.isNaN : JsNumber → Bool
  | .nan => true
  | _ => false

/-- The comparison `n <= q` with a finite `q`. -/
def JsNumber.le (n : JsNumber) (q : ℚ) : Bool :=
  match n with
  | .nan => false
  | .negInfinity => true
  | .finite p => decide (p ≤ q)
  | .posInfinity => false

/-- The comparison `n > q` with a finite `q`. -/
def JsNumber.gt (n : JsNumber) (q : ℚ) : Bool :=
  match n with
  | .nan => false
  | .negInfinity => false
  | .finite p => decide (q < p)
  | .posInfinity => true

/-- A JavaScript value as `escapeHtml` can receive it. An object other than an array is given
by the string that `String(obj)` returns for it (`"[object Object]"` unless it defines
`toString`). -/
inductive JsValue
  | undefined
  | null
  | bool (b : Bool)
  | number (n : JsNumber)
  | string (s : String)
  | array (items : List JsValue)
  | object (stringForm : String)

/-- Whether a value is `undefined` or `null`. -/
def JsValue.isNullish : JsValue → Bool
  | .undefined => true
  | .null => true
  | _ => false

mutual
/-- The conversion `String(v)`; `numberToString` is the conversion of a number. An array is
converted by `Array.prototype.toString`, which is `join(",")`. -/
def jsString (numberToString : JsNumber → String) : JsValue → String
  | .undefined => "undefined"
  | .null => "null"
  | .bool b => if b then "true" else "false"
  | .number n => numberToString n
  | .string s => s
  | .array items => ",".intercalate (jsJoinItems numberToString items)
  | .object stringForm => stringForm
termination_by structural v => v

/-- The strings that `join` puts between the separators: the empty string for an item that is
`undefined` or `null`, `String(item)` for every other item. -/
def jsJoinItems (numberToString : JsNumber → String) : List JsValue → List String
  | [] => []
  | item :: rest =>
    (if item.isNullish then "" else jsString numberToString item)
      :: jsJoinItems numberToString rest
termination_by structural items => items
end

/-- The function `escapeHtml(str)` on any argument: `String(str)` when `typeof str` is not
`'string'`, the five replacements otherwise. -/
def escapeHtmlAny (numberToString : JsNumber → String) (str : JsValue) : String :=
  match str with
  | .string s => escapeHtml s
  | v => jsString numberToString v

/-! ## Decoding `escapeHtml` -/

/-- One step of the decoder of `escapeHtml`, going from right to left: `c` is put in front of
the text `decoded` that is already decoded; an `&` that comes to stand in front of the rest of
an entity is read, together with that rest, as the character of the entity. -/
def unescapeStep (c : Char) (decoded : List Char) : List Char :=
  if c = '&' then
    match decoded with
    | 'a' :: 'm' :: 'p' :: ';' :: rest => '&' :: rest
    | 'l' :: 't' :: ';' :: rest => '<' :: rest
    | 'g' :: 't' :: ';' :: rest => '>' :: rest
    | 'q' :: 'u' :: 'o' :: 't' :: ';' :: rest => '"' :: rest
    | '#' :: '0' :: '3' :: '9' :: ';' :: rest => '\'' :: rest
    | _ => '&' :: decoded
  else c :: decoded

/-- The decoding function `unescape` of C24. -/
def unescapeHtml (s : String) : String :=
  String.mk (s.data.foldr unescapeStep [])

/-! ## The seller form (`validateSellerForm`) -/

/-- An input of the form with its error element: the value of the input, whether the input has
the class `invalid`, and the text of the error element. -/
structure FormField where
  value : String
  invalid : Bool
  error : String
  deriving DecidableEq, Repr

/-- The function `setFieldError(input, errorEl, message)`. -/
def setFieldError (field : FormField) (message : String) : FormField :=
  { field with invalid := true, error := message }

/-- The function `clearFieldError(input, errorEl)`. -/
def clearFieldError (field : FormField) : FormField :=
  { field with invalid := false, error := "" }

/-- The elements of the seller form that `validateSellerForm` reads and writes; `paymentMethod`
is the value of the checked `paymentMethod` input, if one is checked. -/
structure SellerForm where
  sellerName : FormField
  sellerLocation : FormField
  productName : FormField
  pricePerKg : FormField
  paymentMethod : Option String
  paymentMethodError : String
  deriving DecidableEq, Repr

/-- The function `validateSellerForm()`: the form as it leaves it, and the value returned.
`toNumber` is the JavaScript conversion `Number(value)` of a string. -/
def validateSellerForm (toNumber : String → JsNumber) (form : SellerForm) :
    SellerForm × Bool :=
  let valid := true
  let form := { form with
    sellerName := clearFieldError form.sellerName,
    sellerLocation := clearFieldError form.sellerLocation,
    productName := clearFieldError form.productName,
    pricePerKg := clearFieldError form.pricePerKg }
  let form := { form with paymentMethodError := "" }
  let (form, valid) :=
    if jsTrim form.sellerName.value = "" then
      ({ form with sellerName := setFieldError form.sellerName "Full name is required." }, false)
    else (form, valid)
  let (form, valid) :=
    if jsTrim form.sellerLocation.value = "" then
      ({ form with
          sellerLocation := setFieldError form.sellerLocation "Location is required." }, false)
    else (form, valid)
  let (form, valid) :=
    if jsTrim form.productName.value = "" then
      ({ form with
          productName := setFieldError form.productName "Product name is required." }, false)
    else (form, valid)
  let price := toNumber form.pricePerKg.value
  let (form, valid) :=
    if form.pricePerKg.value = "" then
      ({ form with
          pricePerKg := setFieldError form.pricePerKg "Price per kg is required." }, false)
    else if price.isNaN || price.le 0 then
      ({ form with
          pricePerKg := setFieldError form.pricePerKg "Enter a valid price greater than 0." },
        false)
    else if price.gt 2000 then
      ({ form with
          pricePerKg := setFieldError form.pricePerKg "Price per kg cannot exceed KES 2,000." },
        false)
    else (form, valid)
  let paymentChecked := form.paymentMethod
  let (form, valid) :=
    if paymentChecked.isNone then
      ({ form with paymentMethodError := "Please select a payment method." }, false)
    else (form, valid)
  (form, valid)

/-- A conversion to evaluate the form on: it reads a string of decimal digits as its number and
every other string as `NaN`. -/
def sampleToNumber (value : String) : JsNumber :=
  if value.data ≠ [] ∧ value.data.all Char.isDigit then
    .finite (value.data.foldl (fun n c => 10 * n + (c.toNat - 48)) 0 : ℕ)
  else .nan

/-! ## Pruning -/

theorem filter_enumFrom_succ (n : Nat) (l : List Message) :
    (List.enumFrom (n + 1) l).filter (fun c => c.1 != n) = List.enumFrom (n + 1) l := by
  rw [List.filter_eq_self]
  intro a ha
  have h := List.le_fst_of_mem_enumFrom ha
  simp only [bne_iff_ne, ne_eq]
  omega

theorem pruneStep_drop (log : List Message) (k : Nat) (hk : k < log.length) :
    pruneStep log.enum (List.enumFrom k (log.drop k)) k
      = List.enumFrom (k + 1) (log.drop (k + 1)) := by
  have hget : log.enum[k]? = some (k, log[k]) := by
    rw [List.getElem?_enum, List.getElem?_eq_getElem hk]; rfl
  simp only [pruneStep, hget, removeChild]
  rw [List.drop_eq_getElem_cons hk, List.enumFrom_cons, List.filter_cons]
  simp only [bne_self_eq_false, Bool.false_eq_true, if_false]
  exact filter_enumFrom_succ k _

/-- After `k` iterations the loop of `pruneMessages` has removed exactly the first `k` nodes of
the snapshot. -/
theorem pruneLoop_drop (log : List Message) :
    ∀ k, k ≤ log.length →
      (List.range k).foldl (pruneStep log.enum) log.enum = List.enumFrom k (log.drop k) := by
  intro k
  induction k with
  | zero => intro _; simp [List.enum]
  | succ k ih =>
    intro hk
    rw [List.range_succ, List.foldl_append, ih (by omega)]
    simp only [List.foldl_cons, List.foldl_nil]
    exact pruneStep_drop log k (by omega)

/-- The node passed to `removeChild` in iteration `k` is still a child of `messagesEl`, so the
DOM call does not throw. -/
theorem pruneLoop_node_attached (log : List Message) (k : Nat) (hk : k < log.length) :
    ∃ node, log.enum[k]? = some node ∧
      node ∈ (List.range k).foldl (pruneStep log.enum) log.enum := by
  refine ⟨(k, log[k]), ?_, ?_⟩
  · rw [List.getElem?_enum, List.getElem?_eq_getElem hk]; rfl
  · rw [pruneLoop_drop log k (by omega), List.drop_eq_getElem_cons hk, List.enumFrom_cons]
    exact List.mem_cons_self _ _

theorem pruneMessages_eq_drop (log : List Message) :
    pruneMessages log = log.drop (log.length - MAX_HISTORY) := by
  unfold pruneMessages
  simp only [List.enum_length]
  split
  · rw [pruneLoop_drop log _ (by omega), List.enumFrom_map_snd]
  · rw [Nat.sub_eq_zero_of_le (by omega), List.drop_zero]

theorem pruneMessages_length_le (log : List Message) :
    (pruneMessages log).length ≤ MAX_HISTORY := by
  rw [pruneMessages_eq_drop, List.length_drop]
  omega

/-! ## Sequences of appends -/

theorem appendMessage_messages (now : String) (role : Role) (text : String) (s : State) :
    (appendMessage now role text s).1.messages
      = (s.messages ++ [(⟨role, text, now⟩ : Message)]).drop
          ((s.messages ++ [(⟨role, text, now⟩ : Message)]).length - MAX_HISTORY) := by
  simp only [appendMessage, pruneMessages_eq_drop]

theorem appendMessages_cons (s : State) (m : Message) (ms : List Message) :
    appendMessages s (m :: ms) = appendMessages (appendMessage m.time m.role m.text s).1 ms := rfl

theorem appendMessages_length_le (calls : List Message) :
    ∀ s : State, s.messages.length ≤ MAX_HISTORY →
      (appendMessages s calls).messages.length ≤ MAX_HISTORY := by
  induction calls with
  | nil => intro s h; exact h
  | cons m ms ih =>
    intro s _
    rw [appendMessages_cons]
    apply ih
    simp only [appendMessage]
    exact pruneMessages_length_le _

theorem appendMessages_messages (calls : List Message) :
    ∀ s : State, s.messages.length ≤ MAX_HISTORY →
      (appendMessages s calls).messages
        = (s.messages ++ calls).drop ((s.messages ++ calls).length - MAX_HISTORY) := by
  induction calls with
  | nil =>
    intro s h
    simp only [appendMessages, List.foldl_nil, List.append_nil]
    rw [Nat.sub_eq_zero_of_le h, List.drop_zero]
  | cons m ms ih =>
    intro s h
    rw [appendMessages_cons, ih _ (by simp only [appendMessage]; exact pruneMessages_length_le _)]
    rw [appendMessage_messages]
    have hm : (⟨m.role, m.text, m.time⟩ : Message) = m := rfl
    rw [hm]
    have e : s.messages ++ m :: ms = (s.messages ++ [m]) ++ ms := by simp
    rw [e]
    generalize s.messages ++ [m] = X
    have hle : X.length - MAX_HISTORY ≤ X.length := by omega
    rw [← List.drop_append_of_le_length hle, List.drop_drop]
    congr 1
    simp only [List.length_append, List.length_drop]
    omega

/-- C1: starting from a log of at most `MAX_HISTORY` (= 50) messages, after any sequence of
`appendMessage` calls (each of which runs `pruneMessages`) the log holds at most 50
messages. -/
theorem log_bounded_after_appends (s : State) (calls : List Message)
    (h : s.messages.length ≤ MAX_HISTORY) :
    MAX_HISTORY = 50 ∧ (appendMessages s calls).messages.length ≤ 50 :=
  ⟨rfl, appendMessages_length_le calls s h⟩

theorem log_bounded_after_appends_witness :
    (initialState [⟨Role.ai, "a", "09:00"⟩] "").messages.length ≤ MAX_HISTORY ∧
    MAX_HISTORY = 50 ∧
    (appendMessages (initialState [⟨Role.ai, "a", "09:00"⟩] "")
      (List.replicate 60 ⟨Role.user, "b", "09:01"⟩)).messages.length ≤ 50 :=
  ⟨by decide, log_bounded_after_appends _ _ (by decide)⟩

/-- C2: for a log `L` of at most 50 messages and appended messages `m1..mn`, the log after the
appends is exactly the last `min (|L| + n) 50` elements of `L ++ [m1, ..., mn]`, in their
original order: only the oldest entries are evicted and the survivors are not reordered. -/
theorem log_is_last_of_appended (s : State) (calls : List Message)
    (h : s.messages.length ≤ 50) :
    (appendMessages s calls).messages
        = (s.messages ++ calls).drop
            ((s.messages ++ calls).length - min (s.messages.length + calls.length) 50) ∧
    (appendMessages s calls).messages.length = min (s.messages.length + calls.length) 50 := by
  have key := appendMessages_messages calls s h
  have hd : (s.messages ++ calls).length - min (s.messages.length + calls.length) 50
      = (s.messages ++ calls).length - MAX_HISTORY := by
    simp only [List.length_append, MAX_HISTORY]; omega
  refine ⟨by rw [hd]; exact key, ?_⟩
  rw [key, List.length_drop]
  simp only [List.length_append, MAX_HISTORY]; omega

theorem log_is_last_of_appended_witness :
    (initialState [⟨Role.ai, "a", "09:00"⟩, ⟨Role.user, "b", "09:01"⟩] "").messages.length ≤ 50 ∧
    (appendMessages (initialState [⟨Role.ai, "a", "09:00"⟩, ⟨Role.user, "b", "09:01"⟩] "")
      (List.replicate 49 ⟨Role.error, "c", "09:02"⟩)).messages
      = ⟨Role.user, "b", "09:01"⟩ :: List.replicate 49 ⟨Role.error, "c", "09:02"⟩ := by
  refine ⟨by decide, ?_⟩
  rw [(log_is_last_of_appended _ _ (by decide)).1]
  decide


/-! ## The welcome greeting -/

theorem step_fabClick_effects (PAGE_CONTEXT : String) (s : State) (now : String) :
    ((step PAGE_CONTEXT s (.fabClick now)).2 = [] ∨
      ((step PAGE_CONTEXT s (.fabClick now)).2
          = [Effect.appended ⟨Role.ai, jsOr (greetings.lookup PAGE_CONTEXT) HOME_GREETING, now⟩] ∧
        s.welcomeShown = false ∧
        (step PAGE_CONTEXT s (.fabClick now)).1.welcomeShown = true)) := by
  simp only [step, toggleModal, openModal, closeModal, showWelcome]
  cases ho : s.isOpen <;> cases hw : s.welcomeShown <;> simp [appendMessage]

theorem step_welcomeShown (PAGE_CONTEXT : String) (s : State) (e : Event)
    (h : s.welcomeShown = true) : (step PAGE_CONTEXT s e).1.welcomeShown = true := by
  cases e <;>
    simp only [step, toggleModal, openModal, closeModal, showWelcome, handleSend,
      handleSend_resume, onDocumentKeydown, setLoading, appendMessage] <;>
    (repeat' split) <;> simp_all

theorem greetingAppends_nil (PAGE_CONTEXT : String) (e : Event) :
    greetingAppends PAGE_CONTEXT e [] = 0 := by
  unfold greetingAppends
  split <;> simp

theorem handleSend_effects (PAGE_CONTEXT now : String) (s : State) :
    (handleSend PAGE_CONTEXT now s).2 = [] ∨
    (handleSend PAGE_CONTEXT now s).2
      = [Effect.appended ⟨Role.user, jsTrim s.inputValue, now⟩,
         Effect.fetch (sendToAI_payload PAGE_CONTEXT (jsTrim s.inputValue))] := by
  by_cases h : jsTrim s.inputValue = "" ∨ s.isLoading = true
  · left; simp [handleSend, h]
  · right; simp [handleSend, h, appendMessage]

theorem greetingAppends_handleSend (PAGE_CONTEXT now : String) (s : State) (e : Event)
    (he : deliveredReply e = none) :
    greetingAppends PAGE_CONTEXT e (handleSend PAGE_CONTEXT now s).2 = 0 := by
  rcases handleSend_effects PAGE_CONTEXT now s with h | h
  · rw [h]; exact greetingAppends_nil PAGE_CONTEXT e
  · rw [h]
    simp [greetingAppends, he, isGreetingAppend]

theorem greetingAppends_settle (PAGE_CONTEXT : String) (s : State) (i : Nat) (r : FetchResult)
    (now : String) :
    greetingAppends PAGE_CONTEXT (.settle i r now) (step PAGE_CONTEXT s (.settle i r now)).2
      = 0 := by
  simp only [step]
  split
  · unfold greetingAppends deliveredReply handleSend_resume
    cases hr : sendToAI_result r with
    | ok reply => simp [hr, appendMessage]
    | error err => simp [hr, appendMessage, isGreetingAppend]
  · exact greetingAppends_nil PAGE_CONTEXT _

/-- At an event other than a FAB click no greeting is appended. -/
theorem greetingAppends_other (PAGE_CONTEXT : String) (s : State) (e : Event)
    (h : ∀ now, e ≠ .fabClick now) :
    greetingAppends PAGE_CONTEXT e (step PAGE_CONTEXT s e).2 = 0 := by
  cases e with
  | fabClick now => exact absurd rfl (h now)
  | fabKeydown key => exact greetingAppends_nil PAGE_CONTEXT _
  | closeClick => exact greetingAppends_nil PAGE_CONTEXT _
  | documentKeydown key => exact greetingAppends_nil PAGE_CONTEXT _
  | sendClick now => exact greetingAppends_handleSend PAGE_CONTEXT now s _ rfl
  | inputKeydown key shiftKey now =>
    simp only [step]
    split
    · exact greetingAppends_handleSend PAGE_CONTEXT now s _ rfl
    · exact greetingAppends_nil PAGE_CONTEXT _
  | inputEdit value => exact greetingAppends_nil PAGE_CONTEXT _
  | settle i r now => exact greetingAppends_settle PAGE_CONTEXT s i r now

/-- One event appends at most one greeting, and none once `welcomeShown` is set; an event that
appends one sets `welcomeShown`. -/
theorem greetingAppends_step (PAGE_CONTEXT : String) (s : State) (e : Event) :
    greetingAppends PAGE_CONTEXT e (step PAGE_CONTEXT s e).2 = 0 ∨
    (greetingAppends PAGE_CONTEXT e (step PAGE_CONTEXT s e).2 = 1 ∧
      s.welcomeShown = false ∧ (step PAGE_CONTEXT s e).1.welcomeShown = true) := by
  by_cases h : ∀ now, e ≠ .fabClick now
  · exact Or.inl (greetingAppends_other PAGE_CONTEXT s e h)
  · push_neg at h
    obtain ⟨now, rfl⟩ := h
    rcases step_fabClick_effects PAGE_CONTEXT s now with h1 | ⟨h1, h2, h3⟩
    · left; rw [h1]; exact greetingAppends_nil PAGE_CONTEXT _
    · right
      refine ⟨?_, h2, h3⟩
      rw [h1]
      simp [greetingAppends, deliveredReply, isGreetingAppend, greetingText]

theorem welcomeCount_of_shown (PAGE_CONTEXT : String) (es : List Event) :
    ∀ s : State, s.welcomeShown = true → welcomeCount PAGE_CONTEXT s es = 0 := by
  induction es with
  | nil => intro s _; rfl
  | cons e es ih =>
    intro s h
    simp only [welcomeCount, ih _ (step_welcomeShown PAGE_CONTEXT s e h)]
    rcases greetingAppends_step PAGE_CONTEXT s e with h0 | ⟨_, h2, _⟩
    · rw [h0]
    · rw [h] at h2; cases h2

theorem welcomeCount_le_one (PAGE_CONTEXT : String) (es : List Event) :
    ∀ s : State, welcomeCount PAGE_CONTEXT s es ≤ 1 := by
  induction es with
  | nil => intro s; simp [welcomeCount]
  | cons e es ih =>
    intro s
    simp only [welcomeCount]
    rcases greetingAppends_step PAGE_CONTEXT s e with h0 | ⟨h1, _, h3⟩
    · rw [h0]; simpa using ih _
    · rw [h1, welcomeCount_of_shown PAGE_CONTEXT es _ h3]

/-- C4: for every sequence of widget events (FAB click, FAB key, close button, document key,
send by button or Enter, input edit, transport settlement) from the start of a page session,
the greeting is appended to the log at most once, counted over the effects of all events
whatever their kind; no event other than a FAB click appends it; and opening, closing and
opening again by FAB clicks appends it exactly once. -/
theorem welcome_appended_at_most_once (PAGE_CONTEXT : String) (messages : List Message)
    (inputValue : String) (es : List Event) :
    welcomeCount PAGE_CONTEXT (initialState messages inputValue) es ≤ 1 ∧
    (∀ (s : State) (e : Event), (∀ now, e ≠ .fabClick now) →
      greetingAppends PAGE_CONTEXT e (step PAGE_CONTEXT s e).2 = 0) ∧
    (∀ (s : State) (now : String),
      (step PAGE_CONTEXT s (.fabClick now)).2 = [] ∨
      (step PAGE_CONTEXT s (.fabClick now)).2
        = [Effect.appended ⟨Role.ai, greetingText PAGE_CONTEXT, now⟩]) ∧
    welcomeCount PAGE_CONTEXT (initialState messages inputValue)
      [.fabClick "10:00", .fabClick "10:01", .fabClick "10:02"] = 1 := by
  refine ⟨welcomeCount_le_one PAGE_CONTEXT es _, greetingAppends_other PAGE_CONTEXT, fun s now =>
    (step_fabClick_effects PAGE_CONTEXT s now).imp id (fun h => h.1), ?_⟩
  simp [welcomeCount, step, toggleModal, openModal, closeModal, showWelcome, initialState,
    appendMessage, greetingAppends, deliveredReply, isGreetingAppend, greetingText]

/-! ## Sending -/

theorem handleSend_rejected (PAGE_CONTEXT now : String) (s : State)
    (h : s.isLoading = true ∨ jsTrim s.inputValue = "") :
    handleSend PAGE_CONTEXT now s = (s, []) := by
  unfold handleSend
  rw [if_pos (by tauto)]

theorem handleSend_accepted (PAGE_CONTEXT now : String) (s : State)
    (hidle : s.isLoading = false) (ht : jsTrim s.inputValue ≠ "") :
    handleSend PAGE_CONTEXT now s =
      ({ s with
          messages := pruneMessages (s.messages ++ [⟨Role.user, jsTrim s.inputValue, now⟩]),
          inputValue := "",
          isLoading := true,
          pending := s.pending ++ [⟨jsTrim s.inputValue, PAGE_CONTEXT⟩] },
        [Effect.appended ⟨Role.user, jsTrim s.inputValue, now⟩,
         Effect.fetch ⟨jsTrim s.inputValue, PAGE_CONTEXT⟩]) := by
  unfold handleSend
  rw [if_neg (by simp [hidle, ht])]
  rfl

/-- C3: `handleSend` is a no-op (state unchanged, in particular the log, the input text and the
loading flag, and no effect, in particular no request) exactly when a prior send is still awaiting
its reply (`isLoading`) or the trimmed input is empty; in every other state it appends the user
message to the log and issues a request. -/
theorem handleSend_noop_iff (PAGE_CONTEXT now : String) (s : State) :
    (handleSend PAGE_CONTEXT now s = (s, []) ↔
      (s.isLoading = true ∨ jsTrim s.inputValue = "")) ∧
    (¬ (s.isLoading = true ∨ jsTrim s.inputValue = "") →
      (handleSend PAGE_CONTEXT now s).2
        = [Effect.appended ⟨Role.user, jsTrim s.inputValue, now⟩,
           Effect.fetch ⟨jsTrim s.inputValue, PAGE_CONTEXT⟩] ∧
      (handleSend PAGE_CONTEXT now s).1.messages.getLast?
        = some ⟨Role.user, jsTrim s.inputValue, now⟩ ∧
      (handleSend PAGE_CONTEXT now s).1.pending
        = s.pending ++ [⟨jsTrim s.inputValue, PAGE_CONTEXT⟩]) := by
  constructor
  · constructor
    · intro h
      by_contra hn
      have hidle : s.isLoading = false := by
        cases hl : s.isLoading
        · rfl
        · exact absurd (Or.inl hl) hn
      have ht : jsTrim s.inputValue ≠ "" := fun h0 => hn (Or.inr h0)
      rw [handleSend_accepted PAGE_CONTEXT now s hidle ht] at h
      have := congrArg Prod.snd h
      simp at this
    · exact handleSend_rejected PAGE_CONTEXT now s
  · intro hn
    have hidle : s.isLoading = false := by
      cases hl : s.isLoading
      · rfl
      · exact absurd (Or.inl hl) hn
    have ht : jsTrim s.inputValue ≠ "" := fun h0 => hn (Or.inr h0)
    rw [handleSend_accepted PAGE_CONTEXT now s hidle ht]
    refine ⟨rfl, ?_, rfl⟩
    simp only [pruneMessages_eq_drop]
    rw [List.drop_append_of_le_length
      (by simp only [MAX_HISTORY, List.length_append, List.length_singleton]; omega)]
    simp


/-- C5 (the code at the failing input): a first open by FAB click appends the greeting, but
Enter on the FAB opens the widget and appends nothing, and the greeting that a later FAB click
appends comes after the user message. -/
theorem keyboard_open_appends_no_greeting :
    (run "home" (initialState [] "") [.fabClick "10:00"]).messages
      = [⟨Role.ai, HOME_GREETING, "10:00"⟩] ∧
    (run "home" (initialState [] "") [.fabKeydown "Enter"]).isOpen = true ∧
    (run "home" (initialState [] "") [.fabKeydown "Enter"]).messages = [] ∧
    trace "home" (initialState [] "") [.fabKeydown "Enter"] = [[]] ∧
    (run "home" (initialState [] "")
        [.fabKeydown "Enter", .inputEdit "hi", .sendClick "10:00",
         .fabClick "10:01", .fabClick "10:02"]).messages
      = [⟨Role.user, "hi", "10:00"⟩, ⟨Role.ai, HOME_GREETING, "10:02"⟩] := by
  decide

theorem lookup_eq_none_of_not_mem (tag : String) :
    ∀ l : List (String × String), tag ∉ l.map Prod.fst → l.lookup tag = none := by
  intro l
  induction l with
  | nil => intro _; rfl
  | cons x l ih =>
    intro h
    simp only [List.map_cons, List.mem_cons, not_or] at h
    have e : (tag == x.1) = false := by simpa using h.1
    obtain ⟨k, v⟩ := x
    simp only [List.lookup] at *
    rw [e]
    exact ih h.2

theorem greeting_lookup_other (tag : String) (h1 : tag ≠ "buyer") (h2 : tag ≠ "seller")
    (h3 : tag ∉ OBJECT_PROTOTYPE.map Prod.fst) :
    jsOr (greetings.lookup tag) HOME_GREETING = HOME_GREETING := by
  have e1 : (tag == "buyer") = false := by simpa using h1
  have e2 : (tag == "seller") = false := by simpa using h2
  have h5 := lookup_eq_none_of_not_mem tag OBJECT_PROTOTYPE h3
  unfold greetings
  generalize OBJECT_PROTOTYPE = inherited at h5
  simp only [List.cons_append, List.nil_append, List.lookup, e1, e2]
  cases h4 : (tag == "home")
  · show jsOr (List.lookup tag inherited) HOME_GREETING = HOME_GREETING
    rw [h5]; rfl
  · simp [jsOr, HOME_GREETING]

/-- C6 (counterexample): for the tags `__proto__` and `constructor`, which are none of `buyer`,
`seller` and `home`, `greetings[tag]` is the inherited property, which is truthy, so what
`showWelcome` appends is not the home greeting. -/
theorem greeting_inherited_tag_not_home :
    (showWelcome "__proto__" "10:00" (initialState [] "")).2
      = [Effect.appended ⟨Role.ai, "[object Object]", "10:00"⟩] ∧
    jsOr (greetings.lookup "__proto__") HOME_GREETING ≠ HOME_GREETING ∧
    jsOr (greetings.lookup "constructor") HOME_GREETING ≠ HOME_GREETING := by
  decide

/-- C6 (amended): the greeting that `showWelcome` appends is an assistant-role message whose
text depends on the page-context tag only: the seller greeting verbatim for `seller`, the buyer
greeting for `buyer`, the home greeting for `home` and for any other tag that does not name a
property inherited from `Object.prototype`; for a tag that names one, the text is not the home
greeting; `detectPage` returns no such tag; a FAB click on a fresh widget with an empty log and
tag `seller` leaves a log whose first message is the seller greeting. -/
theorem greeting_selected_by_page_context :
    (∀ (tag now : String) (s : State), s.welcomeShown = false →
      (showWelcome tag now s).2
        = [Effect.appended ⟨Role.ai, jsOr (greetings.lookup tag) HOME_GREETING, now⟩]) ∧
    jsOr (greetings.lookup "seller") HOME_GREETING
      = "👋 Hi! I'm your Fruitie AI assistant. I can help you price your produce, find transport options, or understand payment methods. How can I help?" ∧
    jsOr (greetings.lookup "buyer") HOME_GREETING
      = "👋 Hi! I'm your Fruitie AI assistant. I can help you find the best fruits, compare seller prices, or estimate quantities. What are you looking for today?" ∧
    (∀ tag : String, tag ≠ "buyer" → tag ≠ "seller" →
      tag ∉ ["constructor", "__defineGetter__", "__defineSetter__", "hasOwnProperty",
        "__lookupGetter__", "__lookupSetter__", "isPrototypeOf", "propertyIsEnumerable",
        "toString", "valueOf", "__proto__", "toLocaleString"] →
      jsOr (greetings.lookup tag) HOME_GREETING
        = "👋 Welcome to Fruitie! I'm your AI assistant. Ask me anything about buying or selling fresh fruit on the platform.") ∧
    (∀ tag ∈ ["constructor", "__defineGetter__", "__defineSetter__", "hasOwnProperty",
        "__lookupGetter__", "__lookupSetter__", "isPrototypeOf", "propertyIsEnumerable",
        "toString", "valueOf", "__proto__", "toLocaleString"],
      jsOr (greetings.lookup tag) HOME_GREETING ≠ HOME_GREETING ∧
      ∀ path : String, detectPage path ≠ tag) ∧
    (∀ now inputValue : String,
      (step "seller" (initialState [] inputValue) (.fabClick now)).1.messages.head?
        = some ⟨Role.ai, "👋 Hi! I'm your Fruitie AI assistant. I can help you price your produce, find transport options, or understand payment methods. How can I help?", now⟩) := by
  refine ⟨?_, by decide, by decide, ?_, ?_, ?_⟩
  · intro tag now s h
    simp [showWelcome, h, appendMessage]
  · intro tag h1 h2 h3
    exact greeting_lookup_other tag h1 h2 h3
  · intro tag htag
    have hd : ∀ path : String, detectPage path = "buyer" ∨ detectPage path = "seller" ∨
        detectPage path = "home" := by
      intro path
      unfold detectPage
      split
      · exact Or.inl rfl
      · split
        · exact Or.inr (Or.inl rfl)
        · exact Or.inr (Or.inr rfl)
    simp only [List.mem_cons, List.mem_singleton, List.not_mem_nil, or_false] at htag
    rcases htag with rfl | rfl | rfl | rfl | rfl | rfl | rfl | rfl | rfl | rfl | rfl | rfl <;>
      refine ⟨by decide, fun path => ?_⟩ <;>
      rcases hd path with h | h | h <;> rw [h] <;> decide
  · intro now inputValue
    rfl


/-! ## Settling a request -/

theorem falsy_replyString (data : JsonValue) (h : data.falsy = true) :
    data.replyString = none := by
  cases data <;> simp_all [JsonValue.falsy, JsonValue.replyString]

theorem sendToAI_result_failure (r : FetchResult)
    (hfail : (∃ err, r = .rejected err) ∨
      (∃ resp, r = .resolved resp ∧
        (resp.ok = false ∨ (∃ err, resp.json = .error err) ∨
          (∃ data, resp.json = .ok data ∧ data.replyString = none)))) :
    ∃ err, sendToAI_result r = .error err := by
  rcases hfail with ⟨err, rfl⟩ | ⟨resp, rfl, h⟩
  · exact ⟨err, rfl⟩
  · cases hok : resp.ok
    · exact ⟨⟨"Error", "Server error: " ++ toString resp.status ++ " " ++ resp.statusText⟩,
        by simp [sendToAI_result, hok]⟩
    · rcases h with h | ⟨err, h⟩ | ⟨data, h, hd⟩
      · rw [hok] at h; cases h
      · exact ⟨err, by simp [sendToAI_result, hok, h]⟩
      · refine ⟨⟨"Error", "Unexpected response format from AI service."⟩, ?_⟩
        simp [sendToAI_result, hok, h, hd]

theorem handleSend_resume_error (now : String) (r : FetchResult) (s : State) (err : JsError)
    (h : sendToAI_result r = .error err) :
    handleSend_resume now r s =
      ({ s with
          messages := pruneMessages (s.messages ++ [⟨Role.error, FALLBACK_TEXT, now⟩]),
          isLoading := false },
        [Effect.consoleError err, Effect.appended ⟨Role.error, FALLBACK_TEXT, now⟩]) := by
  simp only [handleSend_resume, h]
  rfl

theorem handleSend_resume_ok (now : String) (r : FetchResult) (s : State) (reply : String)
    (h : sendToAI_result r = .ok reply) :
    handleSend_resume now r s =
      ({ s with
          messages := pruneMessages (s.messages ++ [⟨Role.ai, reply, now⟩]),
          isLoading := false },
        [Effect.appended ⟨Role.ai, reply, now⟩]) := by
  simp only [handleSend_resume, h]
  rfl

theorem prune_prune_append (log : List Message) (a b : Message) :
    pruneMessages (pruneMessages (log ++ [a]) ++ [b])
      = (log ++ [a, b]).drop (log.length + 2 - 50) := by
  simp only [pruneMessages_eq_drop]
  have e : log ++ [a, b] = (log ++ [a]) ++ [b] := by simp
  rw [e]
  generalize hX : log ++ [a] = X
  have hlen : X.length = log.length + 1 := by rw [← hX]; simp
  have hle : X.length - MAX_HISTORY ≤ X.length := by omega
  rw [← List.drop_append_of_le_length hle, List.drop_drop]
  congr 1
  simp only [List.length_append, List.length_drop, List.length_singleton, MAX_HISTORY] at *
  omega

theorem eraseIdx_append_length (l : List Payload) (p : Payload) :
    (l ++ [p]).eraseIdx l.length = l := by
  induction l with
  | nil => rfl
  | cons x xs ih => simp [List.eraseIdx, ih]

/-- The state and effects of an accepted send followed by the settlement of its request. -/
theorem send_then_settle (PAGE_CONTEXT now1 now2 : String) (s : State) (r : FetchResult)
    (hidle : s.isLoading = false) (ht : jsTrim s.inputValue ≠ "") :
    step PAGE_CONTEXT (step PAGE_CONTEXT s (.sendClick now1)).1 (.settle s.pending.length r now2)
      = handleSend_resume now2 r
          { s with
            messages := pruneMessages (s.messages ++ [⟨Role.user, jsTrim s.inputValue, now1⟩]),
            inputValue := "",
            isLoading := true } := by
  simp only [step, handleSend_accepted PAGE_CONTEXT now1 s hidle ht, List.length_append,
    List.length_singleton, Nat.lt_succ_self, if_true, eraseIdx_append_length]

/-- C7: for an input whose trimmed text `t` is non-empty, sent while idle, if the transport
fails (`fetch` rejects, the response is not ok, or the body is malformed) then the send and the
settlement of its request append exactly the user message `t` and then an error-role message
with the fixed fallback text; the underlying error goes to `console.error` only, and the
session ends with `isLoading = false`. The settlement does the same in whatever state the
widget is by then. -/
theorem failed_send_appends_fallback (PAGE_CONTEXT now1 now2 : String) (s : State)
    (r : FetchResult) (hidle : s.isLoading = false) (ht : jsTrim s.inputValue ≠ "")
    (hfail : (∃ err, r = .rejected err) ∨
      (∃ resp, r = .resolved resp ∧
        (resp.ok = false ∨ (∃ err, resp.json = .error err) ∨
          (∃ data, resp.json = .ok data ∧ data.replyString = none)))) :
    ∃ err, sendToAI_result r = .error err ∧
      (step PAGE_CONTEXT s (.sendClick now1)).2 ++
        (step PAGE_CONTEXT (step PAGE_CONTEXT s (.sendClick now1)).1
          (.settle s.pending.length r now2)).2
        = [Effect.appended ⟨Role.user, jsTrim s.inputValue, now1⟩,
           Effect.fetch ⟨jsTrim s.inputValue, PAGE_CONTEXT⟩,
           Effect.consoleError err,
           Effect.appended ⟨Role.error,
             "⚠️ Sorry, I couldn't reach the AI service. Please try again shortly.", now2⟩] ∧
      (step PAGE_CONTEXT (step PAGE_CONTEXT s (.sendClick now1)).1
          (.settle s.pending.length r now2)).1
        = { s with
            messages :=
              (s.messages ++
                [(⟨Role.user, jsTrim s.inputValue, now1⟩ : Message),
                 ⟨Role.error,
                  "⚠️ Sorry, I couldn't reach the AI service. Please try again shortly.",
                  now2⟩]).drop (s.messages.length + 2 - 50),
            inputValue := "",
            isLoading := false } ∧
      (∀ (mid : State) (i : Nat), i < mid.pending.length →
        step PAGE_CONTEXT mid (.settle i r now2)
          = ({ mid with
                messages := pruneMessages (mid.messages ++ [⟨Role.error, FALLBACK_TEXT, now2⟩]),
                isLoading := false,
                pending := mid.pending.eraseIdx i },
              [Effect.consoleError err, Effect.appended ⟨Role.error, FALLBACK_TEXT, now2⟩])) := by
  obtain ⟨err, herr⟩ := sendToAI_result_failure r hfail
  refine ⟨err, herr, ?_, ?_, ?_⟩
  rotate_left 2
  · intro mid i hi
    simp only [step, hi, if_true, handleSend_resume_error now2 r _ err herr]
  · rw [send_then_settle PAGE_CONTEXT now1 now2 s r hidle ht,
      handleSend_resume_error now2 r _ err herr]
    simp only [step, handleSend_accepted PAGE_CONTEXT now1 s hidle ht]
    rfl
  · rw [send_then_settle PAGE_CONTEXT now1 now2 s r hidle ht,
      handleSend_resume_error now2 r _ err herr]
    simp only [prune_prune_append]
    rfl

theorem failed_send_appends_fallback_witness :
    (initialState [] " hello ").isLoading = false ∧
    jsTrim (initialState [] " hello ").inputValue ≠ "" ∧
    (run "home" (initialState [] " hello ")
        [.sendClick "10:00", .settle 0 (.rejected ⟨"TypeError", "Failed to fetch"⟩) "10:01"])
      = { isOpen := false, isLoading := false, welcomeShown := false,
          messages := [⟨Role.user, "hello", "10:00"⟩, ⟨Role.error, FALLBACK_TEXT, "10:01"⟩],
          inputValue := "", pending := [] } := by
  refine ⟨rfl, by decide, ?_⟩
  obtain ⟨_, _, _, h, _⟩ := failed_send_appends_fallback "home" "10:00" "10:01"
    (initialState [] " hello ") (.rejected ⟨"TypeError", "Failed to fetch"⟩) rfl (by decide)
    (Or.inl ⟨_, rfl⟩)
  simp only [run]
  exact h.trans (by decide)

/-- C8: for an input whose trimmed text `t` is non-empty, sent while idle, if the transport
succeeds with reply `reply` then the send and the settlement of its request append exactly the
user message `t` and, after it, an assistant-role message whose text is `reply`, and the
session ends with `isLoading = false`. The settlement does the same in whatever state the
widget is by then. -/
theorem successful_send_appends_reply (PAGE_CONTEXT now1 now2 : String) (s : State)
    (r : FetchResult) (reply : String) (hidle : s.isLoading = false)
    (ht : jsTrim s.inputValue ≠ "") (hok : sendToAI_result r = .ok reply) :
    (step PAGE_CONTEXT s (.sendClick now1)).2 ++
        (step PAGE_CONTEXT (step PAGE_CONTEXT s (.sendClick now1)).1
          (.settle s.pending.length r now2)).2
        = [Effect.appended ⟨Role.user, jsTrim s.inputValue, now1⟩,
           Effect.fetch ⟨jsTrim s.inputValue, PAGE_CONTEXT⟩,
           Effect.appended ⟨Role.ai, reply, now2⟩] ∧
      (step PAGE_CONTEXT (step PAGE_CONTEXT s (.sendClick now1)).1
          (.settle s.pending.length r now2)).1
        = { s with
            messages :=
              (s.messages ++
                [(⟨Role.user, jsTrim s.inputValue, now1⟩ : Message),
                 ⟨Role.ai, reply, now2⟩]).drop
                  (s.messages.length + 2 - 50),
            inputValue := "",
            isLoading := false } ∧
      (∀ (mid : State) (i : Nat), i < mid.pending.length →
        step PAGE_CONTEXT mid (.settle i r now2)
          = ({ mid with
                messages := pruneMessages (mid.messages ++ [⟨Role.ai, reply, now2⟩]),
                isLoading := false,
                pending := mid.pending.eraseIdx i },
              [Effect.appended ⟨Role.ai, reply, now2⟩])) := by
  refine ⟨?_, ?_, ?_⟩
  rotate_left 2
  · intro mid i hi
    simp only [step, hi, if_true, handleSend_resume_ok now2 r _ reply hok]
  · rw [send_then_settle PAGE_CONTEXT now1 now2 s r hidle ht,
      handleSend_resume_ok now2 r _ reply hok]
    simp only [step, handleSend_accepted PAGE_CONTEXT now1 s hidle ht]
    rfl
  · rw [send_then_settle PAGE_CONTEXT now1 now2 s r hidle ht,
      handleSend_resume_ok now2 r _ reply hok]
    simp only [prune_prune_append]

theorem successful_send_appends_reply_witness :
    (initialState [] " hello ").isLoading = false ∧
    jsTrim (initialState [] " hello ").inputValue ≠ "" ∧
    sendToAI_result (.resolved ⟨true, 200, "OK", .ok (.obj [("reply", .str "Hi there")])⟩)
      = .ok "Hi there" ∧
    (run "buyer" (initialState [] " hello ")
        [.sendClick "10:00",
         .settle 0 (.resolved ⟨true, 200, "OK", .ok (.obj [("reply", .str "Hi there")])⟩)
           "10:01"])
      = { isOpen := false, isLoading := false, welcomeShown := false,
          messages := [⟨Role.user, "hello", "10:00"⟩, ⟨Role.ai, "Hi there", "10:01"⟩],
          inputValue := "", pending := [] } := by
  refine ⟨rfl, by decide, rfl, ?_⟩
  have h := (successful_send_appends_reply "buyer" "10:00" "10:01"
    (initialState [] " hello ")
    (.resolved ⟨true, 200, "OK", .ok (.obj [("reply", .str "Hi there")])⟩) "Hi there"
    rfl (by decide) rfl).2.1
  simp only [run]
  exact h.trans (by decide)

/-- C9: on an accepted send (idle, trimmed input `t` non-empty), when `handleSend` suspends at
`await sendToAI(text)` it has appended the user-role message `t`, set the input to the empty
string, set `isLoading = true`, and issued exactly one request, whose body is
`{message: t, page: PAGE_CONTEXT}` with `t` the trimmed text. -/
theorem accepted_send_before_settlement (PAGE_CONTEXT now : String) (s : State)
    (hidle : s.isLoading = false) (ht : jsTrim s.inputValue ≠ "") :
    step PAGE_CONTEXT s (.sendClick now) =
      ({ s with
          messages :=
            (s.messages ++ [(⟨Role.user, jsTrim s.inputValue, now⟩ : Message)]).drop
              (s.messages.length + 1 - 50),
          inputValue := "",
          isLoading := true,
          pending := s.pending ++ [⟨jsTrim s.inputValue, PAGE_CONTEXT⟩] },
        [Effect.appended ⟨Role.user, jsTrim s.inputValue, now⟩,
         Effect.fetch ⟨jsTrim s.inputValue, PAGE_CONTEXT⟩]) ∧
    step PAGE_CONTEXT s (.inputKeydown "Enter" false now)
      = step PAGE_CONTEXT s (.sendClick now) := by
  constructor
  · simp only [step, handleSend_accepted PAGE_CONTEXT now s hidle ht, pruneMessages_eq_drop,
      List.length_append, List.length_singleton, MAX_HISTORY]
  · simp only [step, handleSend_accepted PAGE_CONTEXT now s hidle ht, onDocumentKeydown]
    simp

theorem accepted_send_before_settlement_witness :
    (initialState [] "  two words \n").isLoading = false ∧
    jsTrim (initialState [] "  two words \n").inputValue ≠ "" ∧
    step "seller" (initialState [] "  two words \n") (.sendClick "10:00") =
      ({ isOpen := false, isLoading := true, welcomeShown := false,
         messages := [⟨Role.user, "two words", "10:00"⟩],
         inputValue := "", pending := [⟨"two words", "seller"⟩] },
        [Effect.appended ⟨Role.user, "two words", "10:00"⟩,
         Effect.fetch ⟨"two words", "seller"⟩]) := by
  refine ⟨rfl, by decide, ?_⟩
  exact (accepted_send_before_settlement "seller" "10:00"
    (initialState [] "  two words \n") rfl (by decide)).1.trans (by decide)


/-! ## One request in flight -/

theorem handleSend_inflight (PAGE_CONTEXT now : String) (s : State)
    (h : (s.isLoading = true ∧ s.pending.length = 1) ∨ (s.isLoading = false ∧ s.pending = [])) :
    ((handleSend PAGE_CONTEXT now s).1.isLoading = true ∧
        (handleSend PAGE_CONTEXT now s).1.pending.length = 1) ∨
      ((handleSend PAGE_CONTEXT now s).1.isLoading = false ∧
        (handleSend PAGE_CONTEXT now s).1.pending = []) := by
  by_cases hg : s.isLoading = true ∨ jsTrim s.inputValue = ""
  · rw [handleSend_rejected PAGE_CONTEXT now s hg]; exact h
  · have hidle : s.isLoading = false := by
      cases hl : s.isLoading
      · rfl
      · exact absurd (Or.inl hl) hg
    have ht : jsTrim s.inputValue ≠ "" := fun h0 => hg (Or.inr h0)
    rw [handleSend_accepted PAGE_CONTEXT now s hidle ht]
    rcases h with ⟨h1, _⟩ | ⟨_, h2⟩
    · rw [hidle] at h1; cases h1
    · left; simp [h2]

theorem handleSend_resume_idle (now : String) (r : FetchResult) (s : State) :
    (handleSend_resume now r s).1.isLoading = false ∧
      (handleSend_resume now r s).1.pending = s.pending := by
  cases h : sendToAI_result r with
  | ok reply => rw [handleSend_resume_ok now r s reply h]; exact ⟨rfl, rfl⟩
  | error err => rw [handleSend_resume_error now r s err h]; exact ⟨rfl, rfl⟩

theorem step_inflight (PAGE_CONTEXT : String) (s : State) (e : Event)
    (h : (s.isLoading = true ∧ s.pending.length = 1) ∨ (s.isLoading = false ∧ s.pending = [])) :
    ((step PAGE_CONTEXT s e).1.isLoading = true ∧ (step PAGE_CONTEXT s e).1.pending.length = 1) ∨
      ((step PAGE_CONTEXT s e).1.isLoading = false ∧ (step PAGE_CONTEXT s e).1.pending = []) := by
  cases e with
  | fabClick now =>
    simp only [step, toggleModal, openModal, closeModal, showWelcome, appendMessage]
    repeat' split
    all_goals exact h
  | fabKeydown key =>
    simp only [step, toggleModal, openModal, closeModal, onDocumentKeydown]
    repeat' split
    all_goals exact h
  | closeClick => exact h
  | documentKeydown key =>
    simp only [step, closeModal, onDocumentKeydown]
    split
    all_goals exact h
  | sendClick now => exact handleSend_inflight PAGE_CONTEXT now s h
  | inputKeydown key shiftKey now =>
    simp only [step, closeModal, onDocumentKeydown]
    have hs := handleSend_inflight PAGE_CONTEXT now s h
    repeat' split
    all_goals first | exact h | exact hs
  | inputEdit value => exact h
  | settle i r now =>
    simp only [step]
    split
    · rename_i hi
      have hr := handleSend_resume_idle now r { s with pending := s.pending.eraseIdx i }
      rcases h with ⟨_, h2⟩ | ⟨_, h2⟩
      · right
        refine ⟨hr.1, ?_⟩
        rw [hr.2]
        have hi0 : i = 0 := by omega
        subst hi0
        match hp : s.pending, h2 with
        | [p], _ => rfl
      · rw [h2] at hi; simp at hi
    · exact h

theorem run_inflight (PAGE_CONTEXT : String) (es : List Event) :
    ∀ s : State,
      ((s.isLoading = true ∧ s.pending.length = 1) ∨ (s.isLoading = false ∧ s.pending = [])) →
      (((run PAGE_CONTEXT s es).isLoading = true ∧ (run PAGE_CONTEXT s es).pending.length = 1) ∨
        ((run PAGE_CONTEXT s es).isLoading = false ∧ (run PAGE_CONTEXT s es).pending = [])) := by
  induction es with
  | nil => intro s h; exact h
  | cons e es ih => intro s h; exact ih _ (step_inflight PAGE_CONTEXT s e h)

/-- C10: at every state reachable from the start of a page session at most one transport request
is outstanding, `isLoading` is true exactly when one is outstanding, and no request is queued:
a send attempted while one is outstanding changes nothing and issues nothing. -/
theorem single_request_in_flight (PAGE_CONTEXT : String) (messages : List Message)
    (inputValue : String) (es : List Event) :
    (run PAGE_CONTEXT (initialState messages inputValue) es).pending.length ≤ 1 ∧
    ((run PAGE_CONTEXT (initialState messages inputValue) es).isLoading = true ↔
      (run PAGE_CONTEXT (initialState messages inputValue) es).pending.length = 1) ∧
    (∀ now : String,
      (run PAGE_CONTEXT (initialState messages inputValue) es).pending.length = 1 →
      step PAGE_CONTEXT (run PAGE_CONTEXT (initialState messages inputValue) es) (.sendClick now)
        = (run PAGE_CONTEXT (initialState messages inputValue) es, [])) := by
  have h := run_inflight PAGE_CONTEXT es (initialState messages inputValue)
    (Or.inr ⟨rfl, rfl⟩)
  generalize run PAGE_CONTEXT (initialState messages inputValue) es = s at h
  rcases h with ⟨h1, h2⟩ | ⟨h1, h2⟩
  · refine ⟨by omega, ⟨fun _ => h2, fun _ => h1⟩, fun now _ => ?_⟩
    exact handleSend_rejected PAGE_CONTEXT now s (Or.inl h1)
  · refine ⟨by simp [h2], ⟨fun h => ?_, fun h => ?_⟩, fun now h => ?_⟩
    · rw [h1] at h; cases h
    · rw [h2] at h; simp at h
    · rw [h2] at h; simp at h


/-! ## What `sendToAI` returns and throws -/

theorem serverError_ne_unexpected (status : Nat) (statusText : String) :
    (⟨"Error", "Server error: " ++ toString status ++ " " ++ statusText⟩ : JsError)
      ≠ ⟨"Error", "Unexpected response format from AI service."⟩ := by
  intro h
  have h1 := congrArg (fun e => e.message.data.head?) h
  simp [String.data_append] at h1

theorem sendToAI_result_ok_iff (r : FetchResult) (reply : String) :
    sendToAI_result r = .ok reply ↔
      ∃ resp props, r = .resolved resp ∧ resp.ok = true ∧ resp.json = .ok (.obj props) ∧
        props.lookup "reply" = some (.str reply) := by
  constructor
  · intro h
    cases r with
    | rejected err => simp [sendToAI_result] at h
    | resolved resp =>
      cases hok : resp.ok
      · simp [sendToAI_result, hok] at h
      · cases hj : resp.json with
        | error err => simp [sendToAI_result, hok, hj] at h
        | ok data =>
          cases data with
          | obj props =>
            refine ⟨resp, props, rfl, hok, hj, ?_⟩
            simp only [sendToAI_result, hok, hj, JsonValue.falsy, JsonValue.replyString] at h
            cases hl : props.lookup "reply" with
            | none => simp [hl] at h
            | some v =>
              cases v <;> simp_all
          | _ => simp [sendToAI_result, hok, hj, JsonValue.falsy, JsonValue.replyString] at h
  · rintro ⟨resp, props, rfl, hok, hj, hl⟩
    simp [sendToAI_result, hok, hj, hl, JsonValue.falsy, JsonValue.replyString]

/-- C11: `sendToAI` returns the reply text exactly when the response is ok and its body is an
object whose `reply` property is a string, and throws otherwise. For a body without a string
`reply` it throws `Error('Unexpected response format from AI service.')`; that value differs
from the error of a response that is not ok (`Error('Server error: ...')`) and from the
rejection of `fetch`, which is rethrown as it is (a `TypeError` by the Fetch standard). -/
theorem sendToAI_reply_or_error :
    (∀ (r : FetchResult) (reply : String),
      sendToAI_result r = .ok reply ↔
        ∃ resp props, r = .resolved resp ∧ resp.ok = true ∧ resp.json = .ok (.obj props) ∧
          props.lookup "reply" = some (.str reply)) ∧
    (∀ r : FetchResult, (∀ reply, sendToAI_result r ≠ .ok reply) →
      ∃ err, sendToAI_result r = .error err) ∧
    (∀ (resp : Response) (data : JsonValue), resp.ok = true → resp.json = .ok data →
      (∀ props s, data = .obj props → props.lookup "reply" ≠ some (.str s)) →
      sendToAI_result (.resolved resp)
        = .error ⟨"Error", "Unexpected response format from AI service."⟩) ∧
    (∀ resp : Response, resp.ok = false →
      sendToAI_result (.resolved resp)
        = .error ⟨"Error", "Server error: " ++ toString resp.status ++ " " ++ resp.statusText⟩ ∧
      sendToAI_result (.resolved resp)
        ≠ .error ⟨"Error", "Unexpected response format from AI service."⟩) ∧
    (∀ err : JsError, sendToAI_result (.rejected err) = .error err ∧
      (err.name = "TypeError" →
        sendToAI_result (.rejected err)
          ≠ .error ⟨"Error", "Unexpected response format from AI service."⟩)) := by
  refine ⟨sendToAI_result_ok_iff, ?_, ?_, ?_, ?_⟩
  · intro r h
    cases hr : sendToAI_result r with
    | ok reply => exact absurd hr (h reply)
    | error err => exact ⟨err, rfl⟩
  · intro resp data hok hj hno
    cases hr : sendToAI_result (.resolved resp) with
    | ok reply =>
      obtain ⟨resp2, props, h1, _, h3, h4⟩ := (sendToAI_result_ok_iff _ _).1 hr
      cases h1
      rw [hj] at h3
      cases h3
      exact absurd h4 (hno props reply rfl)
    | error err =>
      have hd : data.replyString = none := by
        cases data with
        | obj props =>
          simp only [JsonValue.replyString]
          cases hl : props.lookup "reply" with
          | none => rfl
          | some v =>
            cases v with
            | str s => exact absurd hl (hno props s rfl)
            | _ => rfl
        | _ => rfl
      simp [sendToAI_result, hok, hj, hd] at hr
      rw [hr]
  · intro resp hok
    have h1 : sendToAI_result (.resolved resp)
        = .error ⟨"Error", "Server error: " ++ toString resp.status ++ " " ++ resp.statusText⟩ := by
      simp [sendToAI_result, hok]
    refine ⟨h1, ?_⟩
    rw [h1]
    intro h
    exact serverError_ne_unexpected resp.status resp.statusText (Except.error.inj h)
  · intro err
    refine ⟨rfl, fun hn h => ?_⟩
    have h2 : err = ⟨"Error", "Unexpected response format from AI service."⟩ :=
      Except.error.inj h
    rw [h2] at hn
    exact absurd hn (by decide)


/-! ## Closing the widget -/

theorem pruneMessages_append_getLast (log : List Message) (m : Message) :
    (pruneMessages (log ++ [m])).getLast? = some m := by
  rw [pruneMessages_eq_drop,
    List.drop_append_of_le_length
      (by simp only [MAX_HISTORY, List.length_append, List.length_singleton]; omega)]
  simp

theorem step_close (PAGE_CONTEXT now : String) (s : State) (e : Event)
    (hopen : s.isOpen = true)
    (hclose : e = .closeClick ∨ e = .fabClick now ∨ e = .fabKeydown "Enter" ∨
      e = .fabKeydown " " ∨ e = .documentKeydown "Escape") :
    step PAGE_CONTEXT s e = ({ s with isOpen := false }, []) := by
  rcases hclose with h | h | h | h | h <;> subst h <;>
    simp [step, toggleModal, closeModal, openModal, onDocumentKeydown, hopen]

theorem step_settle (PAGE_CONTEXT : String) (s : State) (i : Nat) (r : FetchResult)
    (now : String) (hi : i < s.pending.length) :
    step PAGE_CONTEXT s (.settle i r now)
      = handleSend_resume now r { s with pending := s.pending.eraseIdx i } := by
  simp only [step, hi, if_true]

theorem step_fabClick_frame (PAGE_CONTEXT now : String) (s : State) :
    (step PAGE_CONTEXT s (.fabClick now)).1.pending = s.pending ∧
    (step PAGE_CONTEXT s (.fabClick now)).1.isLoading = s.isLoading ∧
    (step PAGE_CONTEXT s (.fabClick now)).1.isOpen = !s.isOpen := by
  simp only [step, toggleModal, openModal, closeModal, showWelcome, appendMessage]
  cases ho : s.isOpen <;> cases hw : s.welcomeShown <;> simp

/-- C12: a close action on the open widget (close button, FAB click, Enter or Space on the FAB,
Escape) sets `isOpen` to false and changes nothing else: `isLoading`, the welcome-shown flag,
the log and the request in flight stay as they are. When that request settles, closed or after a
reopening FAB click, its reply or the error message is appended as the last message of the
log. -/
theorem close_keeps_request_in_flight (PAGE_CONTEXT now : String) (s : State) (e : Event)
    (hopen : s.isOpen = true)
    (hclose : e = .closeClick ∨ e = .fabClick now ∨ e = .fabKeydown "Enter" ∨
      e = .fabKeydown " " ∨ e = .documentKeydown "Escape") :
    step PAGE_CONTEXT s e = ({ s with isOpen := false }, []) ∧
    (∀ (i : Nat) (r : FetchResult) (now2 now3 : String) (m : Message),
      i < s.pending.length →
      ((∃ reply, sendToAI_result r = .ok reply ∧ m = ⟨Role.ai, reply, now2⟩) ∨
        (∃ err, sendToAI_result r = .error err ∧ m = ⟨Role.error, FALLBACK_TEXT, now2⟩)) →
      (step PAGE_CONTEXT (step PAGE_CONTEXT s e).1 (.settle i r now2)).1
        = { s with
            isOpen := false,
            messages := pruneMessages (s.messages ++ [m]),
            isLoading := false,
            pending := s.pending.eraseIdx i } ∧
      Effect.appended m ∈ (step PAGE_CONTEXT (step PAGE_CONTEXT s e).1 (.settle i r now2)).2 ∧
      (step PAGE_CONTEXT (step PAGE_CONTEXT (step PAGE_CONTEXT s e).1 (.fabClick now3)).1
          (.settle i r now2)).1.messages.getLast? = some m ∧
      (step PAGE_CONTEXT (step PAGE_CONTEXT (step PAGE_CONTEXT s e).1 (.fabClick now3)).1
          (.settle i r now2)).1.isOpen = true ∧
      Effect.appended m ∈
        (step PAGE_CONTEXT (step PAGE_CONTEXT (step PAGE_CONTEXT s e).1 (.fabClick now3)).1
          (.settle i r now2)).2) := by
  have hc := step_close PAGE_CONTEXT now s e hopen hclose
  refine ⟨hc, ?_⟩
  intro i r now2 now3 m hi hm
  have hc1 : (step PAGE_CONTEXT s e).1 = { s with isOpen := false } := congrArg Prod.fst hc
  rw [hc1]
  have hf := step_fabClick_frame PAGE_CONTEXT now3 { s with isOpen := false }
  have hic : i < ({ s with isOpen := false } : State).pending.length := hi
  have hi2 :
      i < (step PAGE_CONTEXT { s with isOpen := false } (.fabClick now3)).1.pending.length := by
    rw [hf.1]; exact hi
  rw [step_settle PAGE_CONTEXT _ i r now2 hic, step_settle PAGE_CONTEXT _ i r now2 hi2]
  rcases hm with ⟨reply, hr, rfl⟩ | ⟨err, hr, rfl⟩
  · simp only [handleSend_resume_ok now2 r _ reply hr, pruneMessages_append_getLast, hf.2.2]
    simp
  · simp only [handleSend_resume_error now2 r _ err hr, pruneMessages_append_getLast, hf.2.2]
    simp

theorem close_keeps_request_in_flight_witness :
    (run "home" (initialState [] "hi") [.fabClick "10:00", .sendClick "10:01"]).isOpen = true ∧
    (run "home" (initialState [] "hi")
        [.fabClick "10:00", .sendClick "10:01", .documentKeydown "Escape",
         .settle 0 (.resolved ⟨true, 200, "OK", .ok (.obj [("reply", .str "Hello")])⟩) "10:02"])
      = { isOpen := false, isLoading := false, welcomeShown := true,
          messages := [⟨Role.ai, HOME_GREETING, "10:00"⟩, ⟨Role.user, "hi", "10:01"⟩,
            ⟨Role.ai, "Hello", "10:02"⟩],
          inputValue := "", pending := [] } := by
  refine ⟨by decide, ?_⟩
  have h := ((close_keeps_request_in_flight "home" "10:01"
    (run "home" (initialState [] "hi") [.fabClick "10:00", .sendClick "10:01"])
    (.documentKeydown "Escape") (by decide) (Or.inr (Or.inr (Or.inr (Or.inr rfl))))).2 0
    (.resolved ⟨true, 200, "OK", .ok (.obj [("reply", .str "Hello")])⟩) "10:02" "10:03"
    ⟨Role.ai, "Hello", "10:02"⟩ (by decide) (Or.inl ⟨"Hello", rfl, rfl⟩)).1
  exact h.trans (by decide)

/-! ## Phone numbers -/

theorem run_empty (cs : List Char) : Regex.empty.run cs = [cs] := rfl

theorem run_seq (a b : Regex) (cs : List Char) :
    (Regex.seq a b).run cs = (a.run cs).flatMap b.run := rfl

theorem run_alt (a b : Regex) (cs : List Char) :
    (Regex.alt a b).run cs = a.run cs ++ b.run cs := rfl

theorem run_opt (a : Regex) (cs : List Char) : (Regex.opt a).run cs = a.run cs ++ [cs] := rfl

theorem mem_run_char (c : Char) (cs r : List Char) :
    r ∈ (Regex.char c).run cs ↔ cs = c :: r := by
  cases cs with
  | nil => simp [Regex.run]
  | cons x xs =>
    simp only [Regex.run]
    split
    · rename_i h; subst h; simp [eq_comm]
    · rename_i h; simp [h]

theorem mem_run_cls (p : Char → Bool) (cs r : List Char) :
    r ∈ (Regex.cls p).run cs ↔ ∃ x, p x = true ∧ cs = x :: r := by
  cases cs with
  | nil => simp [Regex.run]
  | cons x xs =>
    simp only [Regex.run]
    split
    · rename_i h
      simp only [List.mem_singleton, List.cons.injEq]
      constructor
      · rintro rfl; exact ⟨x, h, rfl, rfl⟩
      · rintro ⟨y, _, rfl, rfl⟩; rfl
    · rename_i h
      simp only [List.not_mem_nil, false_iff, not_exists, not_and, List.cons.injEq]
      rintro y hy rfl
      exact absurd hy h

theorem mem_run_times_cls (p : Char → Bool) (n : Nat) :
    ∀ cs r : List Char, r ∈ ((Regex.cls p).times n).run cs ↔
      ∃ ds : List Char, ds.length = n ∧ (∀ d ∈ ds, p d = true) ∧ cs = ds ++ r := by
  induction n with
  | zero =>
    intro cs r
    simp only [Regex.times, run_empty, List.mem_singleton]
    constructor
    · rintro rfl; exact ⟨[], rfl, by simp, rfl⟩
    · rintro ⟨ds, hl, _, rfl⟩
      rw [List.length_eq_zero] at hl
      subst hl; rfl
  | succ n ih =>
    intro cs r
    simp only [Regex.times, run_seq, List.mem_flatMap, mem_run_cls, ih]
    constructor
    · rintro ⟨mid, ⟨x, hx, rfl⟩, ds, hl, hd, rfl⟩
      refine ⟨x :: ds, by simp [hl], ?_, rfl⟩
      intro d hdm
      rcases List.mem_cons.1 hdm with rfl | h
      · exact hx
      · exact hd d h
    · rintro ⟨ds, hl, hd, rfl⟩
      cases ds with
      | nil => simp at hl
      | cons x ds =>
        refine ⟨ds ++ r, ⟨x, hd x (List.mem_cons_self _ _), rfl⟩, ds, by simpa using hl, ?_, rfl⟩
        intro d hdm
        exact hd d (List.mem_cons_of_mem _ hdm)

theorem test_iff (re : Regex) (s : List Char) : re.test s = true ↔ [] ∈ re.run s := by
  simp only [Regex.test, List.any_eq_true]
  constructor
  · rintro ⟨x, hx, he⟩
    rw [List.isEmpty_iff] at he
    subst he; exact hx
  · intro h; exact ⟨[], h, rfl⟩

theorem isValidPhone_iff (phone : String) :
    isValidPhone phone = true ↔
      ∃ (lead : List Char) (c : Char) (ds : List Char),
        (lead = ['+', '2', '5', '4'] ∨ lead = ['2', '5', '4'] ∨ lead = ['0']) ∧
        (c = '1' ∨ c = '7') ∧ ds.length = 8 ∧ (∀ d ∈ ds, jsIsDigit d = true) ∧
        stripWhiteSpace phone = lead ++ c :: ds := by
  simp only [isValidPhone, test_iff, PHONE_PATTERN, run_seq, run_alt, run_opt, List.mem_flatMap,
    List.mem_append,
    mem_run_char, mem_run_cls, mem_run_times_cls, List.mem_singleton]
  generalize stripWhiteSpace phone = cs
  constructor
  · rintro ⟨mid, hlead, rest, ⟨c, hc, rfl⟩, ds, hl, hd, rfl⟩
    have hc2 : c = '1' ∨ c = '7' := by simpa using hc
    rcases hlead with ⟨m1, hplus, m2, rfl, m3, rfl, rfl⟩ | rfl
    · rcases hplus with rfl | rfl
      · exact ⟨_, c, ds, Or.inl rfl, hc2, hl, hd, by simp⟩
      · exact ⟨_, c, ds, Or.inr (Or.inl rfl), hc2, hl, hd, by simp⟩
    · exact ⟨_, c, ds, Or.inr (Or.inr rfl), hc2, hl, hd, by simp⟩
  · rintro ⟨lead, c, ds, hlead, hc, hl, hd, rfl⟩
    refine ⟨c :: ds, ?_, ds, ⟨c, by simpa using hc, rfl⟩, ds, hl, hd, by simp⟩
    rcases hlead with rfl | rfl | rfl
    · exact Or.inl ⟨_, Or.inl rfl, _, rfl, _, rfl, rfl⟩
    · exact Or.inl ⟨_, Or.inr rfl, _, rfl, _, rfl, rfl⟩
    · exact Or.inr rfl

/-- C19 (the code at the failing inputs): `isValidPhone` accepts `0112345678` and
`254712345678`, which are not of the form `07xxxxxxxx` or `+2547xxxxxxxx` that its doc comment
gives as the format. -/
theorem isValidPhone_accepts_other_formats :
    isValidPhone "0112345678" = true ∧
    kenyanFormatAsDocumented (stripWhiteSpace "0112345678") = false ∧
    isValidPhone "254712345678" = true ∧
    kenyanFormatAsDocumented (stripWhiteSpace "254712345678") = false := by
  decide

/-- What the pattern of `isValidPhone` accepts: `phone`, after removal of all whitespace, is
`+254`, `254` or `0`, then `1` or `7`, then exactly 8 decimal digits; the two documented forms
`07xxxxxxxx` and `+2547xxxxxxxx` are among those accepted. -/
theorem isValidPhone_accepted_formats (phone : String) :
    (isValidPhone phone = true ↔
      ∃ (lead : List Char) (c : Char) (ds : List Char),
        (lead = ['+', '2', '5', '4'] ∨ lead = ['2', '5', '4'] ∨ lead = ['0']) ∧
        (c = '1' ∨ c = '7') ∧ ds.length = 8 ∧ (∀ d ∈ ds, jsIsDigit d = true) ∧
        stripWhiteSpace phone = lead ++ c :: ds) ∧
    (kenyanFormatAsDocumented (stripWhiteSpace phone) = true → isValidPhone phone = true) := by
  refine ⟨isValidPhone_iff phone, fun h => ?_⟩
  rw [isValidPhone_iff]
  generalize stripWhiteSpace phone = cs at h
  unfold kenyanFormatAsDocumented at h
  split at h
  · rename_i ds
    simp only [Bool.and_eq_true, beq_iff_eq, List.all_eq_true] at h
    exact ⟨['0'], '7', ds, Or.inr (Or.inr rfl), Or.inr rfl, h.1, h.2, rfl⟩
  · rename_i ds
    simp only [Bool.and_eq_true, beq_iff_eq, List.all_eq_true] at h
    exact ⟨['+', '2', '5', '4'], '7', ds, Or.inl rfl, Or.inr rfl, h.1, h.2, rfl⟩
  · cases h

/-! ## HTML escaping -/

theorem escapeHtml_passes_char (x : Char) :
    ((if x = '&' then "&amp;".data else [x]).flatMap fun x =>
      (if x = '<' then "&lt;".data else [x]).flatMap fun x =>
        (if x = '>' then "&gt;".data else [x]).flatMap fun x =>
          (if x = '"' then "&quot;".data else [x]).flatMap fun x =>
            if x = '\'' then "&#039;".data else [x])
      = escapeHtmlChar x := by
  unfold escapeHtmlChar
  by_cases h1 : x = '&'
  · subst h1; decide
  · by_cases h2 : x = '<'
    · subst h2; decide
    · by_cases h3 : x = '>'
      · subst h3; decide
      · by_cases h4 : x = '"'
        · subst h4; decide
        · by_cases h5 : x = '\''
          · subst h5; decide
          · simp [h1, h2, h3, h4, h5]

/-- The five sequential replacements amount to one pass that rewrites each character. -/
theorem escapeHtml_data (str : String) :
    (escapeHtml str).data = str.data.flatMap escapeHtmlChar := by
  simp only [escapeHtml, replaceAll, List.flatMap_assoc]
  congr 1
  funext x
  exact escapeHtml_passes_char x

theorem escapeHtmlChar_cases (x : Char) :
    (escapeHtmlChar x = [x] ∧ x ≠ '&' ∧ x ≠ '<' ∧ x ≠ '>' ∧ x ≠ '"' ∧ x ≠ '\'') ∨
    (∃ w : List Char, escapeHtmlChar x = '&' :: w ∧
      (∀ c ∈ w, c ≠ '&' ∧ c ≠ '<' ∧ c ≠ '>' ∧ c ≠ '"' ∧ c ≠ '\'') ∧
      ∃ e ∈ HTML_ENTITIES, e.data = '&' :: w) := by
  unfold escapeHtmlChar
  by_cases h1 : x = '&'
  · right; rw [if_pos h1]; exact ⟨_, rfl, by decide, "&amp;", by decide, rfl⟩
  · by_cases h2 : x = '<'
    · right; rw [if_neg h1, if_pos h2]; exact ⟨_, rfl, by decide, "&lt;", by decide, rfl⟩
    · by_cases h3 : x = '>'
      · right; rw [if_neg h1, if_neg h2, if_pos h3]
        exact ⟨_, rfl, by decide, "&gt;", by decide, rfl⟩
      · by_cases h4 : x = '"'
        · right; rw [if_neg h1, if_neg h2, if_neg h3, if_pos h4]
          exact ⟨_, rfl, by decide, "&quot;", by decide, rfl⟩
        · by_cases h5 : x = '\''
          · right; rw [if_neg h1, if_neg h2, if_neg h3, if_neg h4, if_pos h5]
            exact ⟨_, rfl, by decide, "&#039;", by decide, rfl⟩
          · left; rw [if_neg h1, if_neg h2, if_neg h3, if_neg h4, if_neg h5]
            exact ⟨rfl, h1, h2, h3, h4, h5⟩

theorem escaped_no_markup (l : List Char) :
    ∀ c ∈ l.flatMap escapeHtmlChar, c ≠ '<' ∧ c ≠ '>' ∧ c ≠ '"' ∧ c ≠ '\'' := by
  intro c hc
  obtain ⟨x, _, hx⟩ := List.mem_flatMap.1 hc
  rcases escapeHtmlChar_cases x with ⟨h, _, h2, h3, h4, h5⟩ | ⟨w, h, hw, _⟩
  · rw [h, List.mem_singleton] at hx
    subst hx
    exact ⟨h2, h3, h4, h5⟩
  · rw [h] at hx
    rcases List.mem_cons.1 hx with rfl | hm
    · decide
    · exact (hw c hm).2

theorem ampersand_cons (c : Char) (l : List Char) (hc : c ≠ '&')
    (hl : ∀ pre post, l = pre ++ '&' :: post →
      ∃ e ∈ HTML_ENTITIES, e.data <+: '&' :: post) :
    ∀ pre post, c :: l = pre ++ '&' :: post →
      ∃ e ∈ HTML_ENTITIES, e.data <+: '&' :: post := by
  intro pre post h
  cases pre with
  | nil =>
    simp only [List.nil_append, List.cons.injEq] at h
    exact absurd h.1 hc
  | cons x pre =>
    simp only [List.cons_append, List.cons.injEq] at h
    exact hl pre post h.2

theorem ampersand_append (w l : List Char) (hw : ∀ c ∈ w, c ≠ '&')
    (hl : ∀ pre post, l = pre ++ '&' :: post →
      ∃ e ∈ HTML_ENTITIES, e.data <+: '&' :: post) :
    ∀ pre post, w ++ l = pre ++ '&' :: post →
      ∃ e ∈ HTML_ENTITIES, e.data <+: '&' :: post := by
  induction w with
  | nil => exact hl
  | cons c w ih =>
    exact ampersand_cons c (w ++ l) (hw c (List.mem_cons_self _ _))
      (ih (fun d hd => hw d (List.mem_cons_of_mem _ hd)))

theorem escaped_ampersands (l : List Char) :
    ∀ pre post, l.flatMap escapeHtmlChar = pre ++ '&' :: post →
      ∃ e ∈ HTML_ENTITIES, e.data <+: '&' :: post := by
  induction l with
  | nil => intro pre post h; simp at h
  | cons x xs ih =>
    rw [List.flatMap_cons]
    rcases escapeHtmlChar_cases x with ⟨h, h1, _⟩ | ⟨w, h, hw, e, he, hed⟩
    · rw [h]
      exact ampersand_cons x _ h1 ih
    · rw [h]
      intro pre post hpp
      cases pre with
      | nil =>
        simp only [List.nil_append, List.cons_append, List.cons.injEq, true_and] at hpp
        refine ⟨e, he, ?_⟩
        rw [hed, ← hpp]
        exact ⟨xs.flatMap escapeHtmlChar, rfl⟩
      | cons y pre =>
        simp only [List.cons_append, List.cons.injEq] at hpp
        exact ampersand_append w _ (fun c hc => (hw c hc).1) ih pre post hpp.2

theorem escaped_plain (l : List Char)
    (h : ∀ c ∈ l, c ≠ '&' ∧ c ≠ '<' ∧ c ≠ '>' ∧ c ≠ '"' ∧ c ≠ '\'') :
    l.flatMap escapeHtmlChar = l := by
  induction l with
  | nil => rfl
  | cons x xs ih =>
    rw [List.flatMap_cons, ih (fun c hc => h c (List.mem_cons_of_mem _ hc))]
    obtain ⟨h1, h2, h3, h4, h5⟩ := h x (List.mem_cons_self _ _)
    simp [escapeHtmlChar, h1, h2, h3, h4, h5]

/-- C20: for every string `s`, `escapeHtml(s)` contains none of the characters `<`, `>`, `"`
and `'`, every `&` in it starts one of the entities `&amp;`, `&lt;`, `&gt;`, `&quot;`,
`&#039;`, and a string with none of the five special characters is returned unchanged. -/
theorem escapeHtml_output_safe (s : String) :
    (∀ c ∈ (escapeHtml s).data, c ≠ '<' ∧ c ≠ '>' ∧ c ≠ '"' ∧ c ≠ '\'') ∧
    (∀ pre post : List Char, (escapeHtml s).data = pre ++ '&' :: post →
      ∃ e ∈ ["&amp;", "&lt;", "&gt;", "&quot;", "&#039;"], e.data <+: '&' :: post) ∧
    ((∀ c ∈ s.data, c ≠ '&' ∧ c ≠ '<' ∧ c ≠ '>' ∧ c ≠ '"' ∧ c ≠ '\'') →
      escapeHtml s = s) := by
  refine ⟨?_, ?_, ?_⟩
  · rw [escapeHtml_data]; exact escaped_no_markup s.data
  · rw [escapeHtml_data]; exact escaped_ampersands s.data
  · intro h
    have hd := escapeHtml_data s
    rw [escaped_plain s.data h] at hd
    exact String.ext hd

/-! ## The user model -/

theorem sum_units_ge_length (cs : List Char) :
    cs.length ≤ (cs.map (fun c => if c.toNat < 0x10000 then 1 else 2)).sum := by
  induction cs with
  | nil => simp
  | cons c cs ih =>
    simp only [List.map_cons, List.sum_cons, List.length_cons]
    split <;> omega

theorem jsLength_ge_length (s : String) : s.length ≤ jsLength s :=
  sum_units_ge_length s.data

theorem bcryptHash_length (env : Platform) (s salt : String) :
    (bcryptHash env s salt).length
      = salt.length + (env.bcryptDigest (bcryptKey s) salt).length := by
  simp [bcryptHash, String.length_append]

theorem bcryptHash_salt (env : Platform) (s salt : String) (hsalt : salt.length = 29) :
    String.mk ((bcryptHash env s salt).data.take 29) = salt := by
  apply String.ext
  have h : salt.data.length = 29 := hsalt
  simp only [bcryptHash, String.data_append]
  rw [List.take_append_of_le_length (by omega), List.take_of_length_le (by omega)]

/-- The comparison of `bcrypt.compare` against a hash made with a well-formed salt: the
candidate matches exactly when it has the same digest. -/
theorem bcryptCompare_hash (env : Platform) (p q salt : String) (hsalt : salt.length = 29)
    (hdigest : ∀ key, (env.bcryptDigest key salt).length = 31) :
    bcryptCompare env q (bcryptHash env p salt)
      = decide (env.bcryptDigest (bcryptKey q) salt = env.bcryptDigest (bcryptKey p) salt) := by
  unfold bcryptCompare
  rw [bcryptHash_salt env p salt hsalt, bcryptHash_length, hsalt, hdigest]
  simp only [beq_self_eq_true, Bool.true_and]
  by_cases h : env.bcryptDigest (bcryptKey q) salt = env.bcryptDigest (bcryptKey p) salt
  · simp [bcryptHash, h]
  · simp only [h, decide_False, beq_eq_false_iff_ne, ne_eq, bcryptHash]
    intro hc
    apply h
    have := congrArg String.data hc
    simp only [String.data_append, List.append_cancel_left_eq] at this
    exact String.ext this

theorem preSave_unmodified (env : Platform) (salt : String) (doc : User)
    (h : doc.isModified "password" = false) : preSave env salt doc = .ok doc := by
  simp [preSave, h]

theorem preSave_modified (env : Platform) (salt : String) (doc : User) (p : String)
    (h : doc.isModified "password" = true) (hp : doc.password = some p) :
    preSave env salt doc = .ok { doc with password := some (bcryptHash env p salt) } := by
  simp [preSave, h, hp]

theorem validate_eq_nil_iff (doc : User) :
    validate doc = [] ↔
      requiredOk doc.name = true ∧ requiredOk doc.email = true ∧
      requiredOk doc.password = true ∧ minlengthOk 6 doc.password = true ∧
      minlengthOk 3 doc.location = true ∧ minlengthOk 6 doc.phoneNumber = true ∧
      enumOk ["user", "admin"] doc.role = true := by
  unfold validate
  cases requiredOk doc.name <;> cases requiredOk doc.email <;>
    cases requiredOk doc.password <;> cases minlengthOk 6 doc.password <;>
    cases minlengthOk 3 doc.location <;> cases minlengthOk 6 doc.phoneNumber <;>
    cases enumOk ["user", "admin"] doc.role <;> simp

theorem validate_frame (doc doc2 : User) (hn : doc2.name = doc.name)
    (he : doc2.email = doc.email) (hp : doc2.password = doc.password)
    (hl : doc2.location = doc.location) (hph : doc2.phoneNumber = doc.phoneNumber)
    (hr : doc2.role = doc.role) : validate doc2 = validate doc := by
  simp only [validate, hn, he, hp, hl, hph, hr]

theorem hash_valid_password (env : Platform) (p salt : String) (hsalt : salt.length = 29) :
    requiredOk (some (bcryptHash env p salt)) = true ∧
      minlengthOk 6 (some (bcryptHash env p salt)) = true := by
  have hlen := bcryptHash_length env p salt
  have hjs := jsLength_ge_length (bcryptHash env p salt)
  constructor
  · simp only [requiredOk, bne_iff_ne, ne_eq]
    intro h
    rw [h] at hlen
    simp at hlen
    omega
  · simp only [minlengthOk, decide_eq_true_eq]
    omega

/-- What a successful `save` returns: the document after the hook, marked as saved. -/
theorem save_ok (env : Platform) (salt : String) (db db1 : List User) (doc doc1 : User)
    (h : save env salt db doc = .ok (db1, doc1)) :
    validate doc = [] ∧
    ∃ hashed, preSave env salt doc = .ok hashed ∧
      doc1 = { hashed with isNew := false, modifiedPaths := [] } := by
  unfold save at h
  by_cases hv : validate doc = []
  · refine ⟨hv, ?_⟩
    rw [if_neg (by simp [hv])] at h
    cases hp : preSave env salt doc with
    | error e => rw [hp] at h; cases h
    | ok hashed =>
      refine ⟨hashed, rfl, ?_⟩
      rw [hp] at h
      simp only at h
      split at h
      · split at h
        · cases h
        · cases h; rfl
      · split at h
        · cases h
        · cases h; rfl
  · rw [if_pos hv] at h; cases h

theorem preSave_frame (env : Platform) (salt : String) (doc hashed : User)
    (h : preSave env salt doc = .ok hashed) :
    hashed.id = doc.id ∧ hashed.name = doc.name ∧ hashed.email = doc.email ∧
    hashed.location = doc.location ∧ hashed.phoneNumber = doc.phoneNumber ∧
    hashed.role = doc.role ∧ hashed.isNew = doc.isNew ∧
    hashed.modifiedPaths = doc.modifiedPaths ∧
    ((doc.isModified "password" = false ∧ hashed.password = doc.password) ∨
      (doc.isModified "password" = true ∧
        ∃ p, doc.password = some p ∧ hashed.password = some (bcryptHash env p salt))) := by
  cases hm : doc.isModified "password"
  · rw [preSave_unmodified env salt doc hm] at h
    cases h
    simp
  · cases hp : doc.password with
    | none => simp [preSave, hm, hp] at h
    | some p =>
      rw [preSave_modified env salt doc p hm hp] at h
      cases h
      simp [hp]

theorem save_again (env : Platform) (salt salt2 : String) (db db1 : List User)
    (doc doc1 : User) (hsalt : salt.length = 29)
    (h : save env salt db doc = .ok (db1, doc1)) :
    doc1.isModified "password" = false ∧
      save env salt2 db1 doc1
        = .ok (db1.map (fun u => if u.id = doc1.id then doc1 else u), doc1) := by
  obtain ⟨hv, hashed, hpre, rfl⟩ := save_ok env salt db db1 doc doc1 h
  obtain ⟨_, hn, he, hl, hph, hr, _, _, hpw⟩ := preSave_frame env salt doc hashed hpre
  have hmod : ({ hashed with isNew := false, modifiedPaths := [] } : User).isModified "password"
      = false := by
    simp [User.isModified]
  refine ⟨hmod, ?_⟩
  have hvalid : validate ({ hashed with isNew := false, modifiedPaths := [] } : User) = [] := by
    rw [validate_eq_nil_iff] at hv ⊢
    obtain ⟨v1, v2, v3, v4, v5, v6, v7⟩ := hv
    refine ⟨by simpa [hn] using v1, by simpa [he] using v2, ?_, ?_, by simpa [hl] using v5,
      by simpa [hph] using v6, by simpa [hr] using v7⟩
    · rcases hpw with ⟨_, hpw⟩ | ⟨_, p, _, hpw⟩
      · simpa [hpw] using v3
      · simp only [hpw]; exact (hash_valid_password env p salt hsalt).1
    · rcases hpw with ⟨_, hpw⟩ | ⟨_, p, _, hpw⟩
      · simpa [hpw] using v4
      · simp only [hpw]; exact (hash_valid_password env p salt hsalt).2
  unfold save
  rw [if_neg (by simp [hvalid]), preSave_unmodified env salt2 _ hmod]
  simp [User.isModified]


theorem samplePlatform_digest_length (key : List UInt8) (salt : String) :
    (samplePlatform.bcryptDigest key salt).length = 31 := by
  simp [samplePlatform, String.length]

/-- C13: the pre-save hook leaves the document as it is when `password` is not modified and
replaces `password` by `bcrypt.hash(password, salt)` when it is; a save of a document whose
password was not modified stores the password it had; and after a successful save the password
is no longer marked modified, so saving again succeeds and returns the same document, with the
hash computed once. -/
theorem preSave_hashes_only_when_modified :
    (∀ (env : Platform) (salt : String) (doc : User),
      doc.isModified "password" = false → preSave env salt doc = .ok doc) ∧
    (∀ (env : Platform) (salt : String) (doc : User) (p : String),
      doc.isModified "password" = true → doc.password = some p →
      preSave env salt doc = .ok { doc with password := some (bcryptHash env p salt) }) ∧
    (∀ (env : Platform) (salt : String) (db db1 : List User) (doc doc1 : User),
      doc.isModified "password" = false → save env salt db doc = .ok (db1, doc1) →
      doc1.password = doc.password) ∧
    (∀ (env : Platform) (salt salt2 : String) (db db1 : List User) (doc doc1 : User),
      salt.length = 29 → save env salt db doc = .ok (db1, doc1) →
      doc1.isModified "password" = false ∧
      save env salt2 db1 doc1
        = .ok (db1.map (fun u => if u.id = doc1.id then doc1 else u), doc1)) := by
  refine ⟨preSave_unmodified, preSave_modified, ?_, ?_⟩
  · intro env salt db db1 doc doc1 hm h
    obtain ⟨_, hashed, hpre, rfl⟩ := save_ok env salt db db1 doc doc1 h
    rw [preSave_unmodified env salt doc hm] at hpre
    cases hpre
    rfl
  · intro env salt salt2 db db1 doc doc1 hsalt h
    exact save_again env salt salt2 db db1 doc doc1 hsalt h

theorem createUser_ok (env : Platform) (salt : String) (id : Nat) (db : List User)
    (input : UserInput) (hvalid : validate (newUser env id input) = [])
    (hunique : db.any (fun u => u.email == (newUser env id input).email) = false) :
    ∃ p, input.password = some p ∧
      createUser env salt id db input
        = .ok (db ++ [{ newUser env id input with
                        password := some (bcryptHash env p salt),
                        isNew := false, modifiedPaths := [] }],
               { newUser env id input with
                  password := some (bcryptHash env p salt),
                  isNew := false, modifiedPaths := [] }) := by
  have hv := (validate_eq_nil_iff _).1 hvalid
  cases hp : input.password with
  | none => simp [newUser, hp, requiredOk] at hv
  | some p =>
    refine ⟨p, rfl, ?_⟩
    have hm : (newUser env id input).isModified "password" = true := by
      simp [User.isModified, newUser, UserInput.paths, hp]
    have hpw : (newUser env id input).password = some p := by simp [newUser, hp]
    unfold createUser save
    rw [if_neg (by simp [hvalid]), preSave_modified env salt _ p hm hpw]
    have hnew : (newUser env id input).isNew = true := rfl
    simp only [hnew, if_true]
    have hu : (db.any fun u => u.email ==
        ({ newUser env id input with password := some (bcryptHash env p salt) } : User).email)
        = false := hunique
    rw [hu]
    simp

theorem createUser_result (env : Platform) (salt : String) (id : Nat) (db db1 : List User)
    (input : UserInput) (u : User) (h : createUser env salt id db input = .ok (db1, u)) :
    validate (newUser env id input) = [] ∧
    ∃ p, input.password = some p ∧
      u = { newUser env id input with
            password := some (bcryptHash env p salt), isNew := false, modifiedPaths := [] } := by
  obtain ⟨hv, hashed, hpre, rfl⟩ := save_ok env salt db db1 _ u h
  refine ⟨hv, ?_⟩
  have hv2 := (validate_eq_nil_iff _).1 hv
  cases hp : input.password with
  | none => simp [newUser, hp, requiredOk] at hv2
  | some p =>
    refine ⟨p, rfl, ?_⟩
    have hm : (newUser env id input).isModified "password" = true := by
      simp [User.isModified, newUser, UserInput.paths, hp]
    have hpw : (newUser env id input).password = some p := by simp [newUser, hp]
    rw [preSave_modified env salt _ p hm hpw] at hpre
    cases hpre
    rfl

/-- C14 (counterexample): two different passwords that agree on their first 72 bytes. Whatever
the digest of bcrypt is, a user created with the first one is matched by the second one. -/
theorem matchPassword_accepts_other_password :
    "aaaaaaaaaaaaaaaaaaaaaaaaaaaaaaaaaaaaaaaaaaaaaaaaaaaaaaaaaaaaaaaaaaaaaaaa1" ≠ "aaaaaaaaaaaaaaaaaaaaaaaaaaaaaaaaaaaaaaaaaaaaaaaaaaaaaaaaaaaaaaaaaaaaaaaa2" ∧
    ∀ (digest : List UInt8 → String → String) (salt : String) (id : Nat),
      salt.length = 29 → (∀ key, (digest key salt).length = 31) →
      ∃ u : User,
        createUser ⟨samplePlatform.toLowerCase, digest⟩ salt id []
            { name := some "Ana", email := some "ana@x.com",
              password := some "aaaaaaaaaaaaaaaaaaaaaaaaaaaaaaaaaaaaaaaaaaaaaaaaaaaaaaaaaaaaaaaaaaaaaaaa1",
              location := none, phoneNumber := none, role := none }
          = .ok ([u], u) ∧
        matchPassword ⟨samplePlatform.toLowerCase, digest⟩
            "aaaaaaaaaaaaaaaaaaaaaaaaaaaaaaaaaaaaaaaaaaaaaaaaaaaaaaaaaaaaaaaaaaaaaaaa2" u
          = .ok true := by
  refine ⟨by decide, ?_⟩
  intro digest salt id hsalt hdigest
  obtain ⟨p, hp, hc⟩ := createUser_ok ⟨samplePlatform.toLowerCase, digest⟩ salt id []
    { name := some "Ana", email := some "ana@x.com",
      password := some "aaaaaaaaaaaaaaaaaaaaaaaaaaaaaaaaaaaaaaaaaaaaaaaaaaaaaaaaaaaaaaaaaaaaaaaa1",
      location := none, phoneNumber := none, role := none } rfl rfl
  cases hp
  refine ⟨_, hc, ?_⟩
  simp only [matchPassword]
  rw [bcryptCompare_hash _ _ _ salt hsalt hdigest]
  have hk : bcryptKey "aaaaaaaaaaaaaaaaaaaaaaaaaaaaaaaaaaaaaaaaaaaaaaaaaaaaaaaaaaaaaaaaaaaaaaaa2" = bcryptKey "aaaaaaaaaaaaaaaaaaaaaaaaaaaaaaaaaaaaaaaaaaaaaaaaaaaaaaaaaaaaaaaaaaaaaaaa1" := by decide
  rw [hk]
  simp

/-- C14 (amended): for a user created with plaintext password `p`, `matchPassword(p)` is true,
and `matchPassword(q)` is true exactly when bcrypt computes for `q` the digest it computed for
`p` under the salt of the record, false otherwise; bcrypt reads the first 72 bytes of the
password only, so every `q` with the same 72 key bytes as `p` is accepted. -/
theorem matchPassword_iff_same_digest (env : Platform) (salt : String) (id : Nat)
    (db db1 : List User) (input : UserInput) (p : String) (u : User)
    (hsalt : salt.length = 29) (hdigest : ∀ key, (env.bcryptDigest key salt).length = 31)
    (hp : input.password = some p)
    (hc : createUser env salt id db input = .ok (db1, u)) :
    matchPassword env p u = .ok true ∧
    (∀ q : String,
      matchPassword env q u
        = .ok (decide (env.bcryptDigest (bcryptKey q) salt
            = env.bcryptDigest (bcryptKey p) salt))) ∧
    (∀ q : String, bcryptKey q = bcryptKey p → matchPassword env q u = .ok true) := by
  obtain ⟨_, p2, hp2, rfl⟩ := createUser_result env salt id db db1 input u hc
  rw [hp] at hp2
  cases hp2
  have key : ∀ q : String,
      matchPassword env q
          { newUser env id input with
            password := some (bcryptHash env p salt), isNew := false, modifiedPaths := [] }
        = .ok (decide (env.bcryptDigest (bcryptKey q) salt
            = env.bcryptDigest (bcryptKey p) salt)) := by
    intro q
    simp only [matchPassword]
    rw [bcryptCompare_hash env p q salt hsalt hdigest]
  refine ⟨?_, key, ?_⟩
  · rw [key]; simp
  · intro q hq
    rw [key, hq]; simp

theorem matchPassword_iff_same_digest_witness :
    ("$2a$10$abcdefghijklmnopqrstuv" : String).length = 29 ∧
    (∀ key, (samplePlatform.bcryptDigest key "$2a$10$abcdefghijklmnopqrstuv").length = 31) ∧
    matchPassword samplePlatform "secret1"
        { id := 1, name := some "Ana", email := some "ana@x.com",
          password := some (bcryptHash samplePlatform "secret1" "$2a$10$abcdefghijklmnopqrstuv"),
          location := none, phoneNumber := none, role := some "user",
          isNew := false, modifiedPaths := [] }
      = .ok true ∧
    matchPassword samplePlatform "secret2"
        { id := 1, name := some "Ana", email := some "ana@x.com",
          password := some (bcryptHash samplePlatform "secret1" "$2a$10$abcdefghijklmnopqrstuv"),
          location := none, phoneNumber := none, role := some "user",
          isNew := false, modifiedPaths := [] }
      = .ok false := by
  have hc : createUser samplePlatform "$2a$10$abcdefghijklmnopqrstuv" 1 []
      { name := some " Ana ", email := some "Ana@X.com", password := some "secret1",
        location := none, phoneNumber := none, role := none }
      = .ok ([{ id := 1, name := some "Ana", email := some "ana@x.com",
                password := some (bcryptHash samplePlatform "secret1"
                  "$2a$10$abcdefghijklmnopqrstuv"),
                location := none, phoneNumber := none, role := some "user",
                isNew := false, modifiedPaths := [] }],
              { id := 1, name := some "Ana", email := some "ana@x.com",
                password := some (bcryptHash samplePlatform "secret1"
                  "$2a$10$abcdefghijklmnopqrstuv"),
                location := none, phoneNumber := none, role := some "user",
                isNew := false, modifiedPaths := [] }) := by
    rfl
  have h := matchPassword_iff_same_digest samplePlatform "$2a$10$abcdefghijklmnopqrstuv" 1 []
    _ _ "secret1" _ (by decide) (fun key => samplePlatform_digest_length key _) rfl hc
  refine ⟨by decide, fun key => samplePlatform_digest_length key _, h.1, ?_⟩
  rw [h.2.1 "secret2"]
  exact congrArg Except.ok (by decide)

theorem bcryptHash_fixed_starts_with_salt (env : Platform) (p salt : String)
    (h : bcryptHash env p salt = p) : salt.data <+: p.data := by
  have hd := congrArg String.data h
  simp only [bcryptHash, String.data_append] at hd
  exact ⟨_, hd⟩

/-- C15: for every input that passes the validators of the schema and whose email is not yet
in the collection, creation succeeds, and the password persisted is
`bcrypt.hash(plaintext, salt)`, the salt followed by the digest, computed by the pre-save hook
before the insert. It is not the plaintext, whatever the length of the plaintext: the two
could only be equal for a plaintext that begins with the very salt that `genSalt` draws for
this record, so for at most one salt, and only for a plaintext of 60 characters. -/
theorem createUser_persists_hash (env : Platform) (salt : String) (id : Nat)
    (db : List User) (input : UserInput)
    (hvalid : validate (newUser env id input) = [])
    (hunique : db.any (fun u => u.email == (newUser env id input).email) = false) :
    ∃ p, input.password = some p ∧
      createUser env salt id db input
        = .ok (db ++ [{ newUser env id input with
                        password := some (bcryptHash env p salt),
                        isNew := false, modifiedPaths := [] }],
               { newUser env id input with
                  password := some (bcryptHash env p salt),
                  isNew := false, modifiedPaths := [] }) ∧
      bcryptHash env p salt = salt ++ env.bcryptDigest (bcryptKey p) salt ∧
      (¬ salt.data <+: p.data → bcryptHash env p salt ≠ p) ∧
      (∀ salt2 : String, salt2.length = salt.length →
        bcryptHash env p salt = p → bcryptHash env p salt2 = p → salt2 = salt) ∧
      (salt.length = 29 → (∀ key, (env.bcryptDigest key salt).length = 31) →
        p.length ≠ 60 → bcryptHash env p salt ≠ p) := by
  obtain ⟨p, hp, hc⟩ := createUser_ok env salt id db input hvalid hunique
  refine ⟨p, hp, hc, rfl, ?_, ?_, ?_⟩
  · intro hpre heq
    exact hpre (bcryptHash_fixed_starts_with_salt env p salt heq)
  · intro salt2 hlen h1 h2
    have p1 := bcryptHash_fixed_starts_with_salt env p salt h1
    have p2 := bcryptHash_fixed_starts_with_salt env p salt2 h2
    have hl : salt2.data.length = salt.data.length := hlen
    apply String.ext
    rw [List.prefix_iff_eq_take] at p1 p2
    rw [p1, p2, hl]
  · intro hsalt hdigest hlen heq
    apply hlen
    rw [← heq, bcryptHash_length, hsalt, hdigest]

theorem createUser_persists_hash_witness :
    validate (newUser samplePlatform 7
      { name := some " Ana ", email := some "Ana@X.com",
        password := some "correct horse battery staple, correct horse battery staple!?",
        location := none, phoneNumber := none, role := none }) = [] ∧
    ("correct horse battery staple, correct horse battery staple!?" : String).length = 60 ∧
    createUser samplePlatform "$2a$10$abcdefghijklmnopqrstuv" 7 []
        { name := some " Ana ", email := some "Ana@X.com",
          password := some "correct horse battery staple, correct horse battery staple!?",
          location := none, phoneNumber := none, role := none }
      = .ok ([{ id := 7, name := some "Ana", email := some "ana@x.com",
                password := some (bcryptHash samplePlatform
                  "correct horse battery staple, correct horse battery staple!?"
                  "$2a$10$abcdefghijklmnopqrstuv"),
                location := none, phoneNumber := none, role := some "user",
                isNew := false, modifiedPaths := [] }],
              { id := 7, name := some "Ana", email := some "ana@x.com",
                password := some (bcryptHash samplePlatform
                  "correct horse battery staple, correct horse battery staple!?"
                  "$2a$10$abcdefghijklmnopqrstuv"),
                location := none, phoneNumber := none, role := some "user",
                isNew := false, modifiedPaths := [] }) ∧
    bcryptHash samplePlatform "correct horse battery staple, correct horse battery staple!?"
        "$2a$10$abcdefghijklmnopqrstuv"
      ≠ "correct horse battery staple, correct horse battery staple!?" := by
  refine ⟨by decide, by decide, ?_⟩
  obtain ⟨p, hp, hc, _, hne, _⟩ := createUser_persists_hash samplePlatform
    "$2a$10$abcdefghijklmnopqrstuv" 7 []
    { name := some " Ana ", email := some "Ana@X.com",
      password := some "correct horse battery staple, correct horse battery staple!?",
      location := none, phoneNumber := none, role := none } (by decide) rfl
  have hp2 : p = "correct horse battery staple, correct horse battery staple!?" :=
    (Option.some.inj hp).symm
  subst hp2
  exact ⟨hc, hne (by decide)⟩

theorem createUser_invalid (env : Platform) (salt : String) (id : Nat) (db : List User)
    (input : UserInput) (h : validate (newUser env id input) ≠ []) :
    createUser env salt id db input = .error (.validation (validate (newUser env id input))) := by
  unfold createUser save
  rw [if_pos h]

/-- What `new User(input)` holds in `name` and `email` once validation has passed. -/
theorem newUser_name_email (env : Platform) (id : Nat) (input : UserInput)
    (hvalid : validate (newUser env id input) = []) :
    ∃ n e, input.name = some n ∧ input.email = some e ∧
      (newUser env id input).name = some (jsTrim n) ∧
      (newUser env id input).email = some (env.toLowerCase e) := by
  have hv2 := (validate_eq_nil_iff _).1 hvalid
  cases hn : input.name with
  | none => simp [newUser, hn, requiredOk] at hv2
  | some n =>
    cases he : input.email with
    | none => simp [newUser, he, requiredOk] at hv2
    | some e => exact ⟨n, e, rfl, rfl, by simp [newUser, hn], by simp [newUser, he]⟩

/-- C16 (counterexample): the password of three emoji has 3 characters, fewer than 6, yet
`minlength: 6` passes it, because the `length` of a JavaScript string counts UTF-16 code units
and each of these characters takes two: the user is created. -/
theorem createUser_accepts_three_characters :
    ("😀😀😀" : String).length = 3 ∧ jsLength "😀😀😀" = 6 ∧
    ∀ (digest : List UInt8 → String → String) (salt : String) (id : Nat),
      ∃ u : User,
        createUser ⟨samplePlatform.toLowerCase, digest⟩ salt id []
            { name := some "Ana", email := some "ana@x.com", password := some "😀😀😀",
              location := none, phoneNumber := none, role := none }
          = .ok ([u], u) := by
  refine ⟨by decide, by decide, ?_⟩
  intro digest salt id
  obtain ⟨p, _, hc⟩ := createUser_ok ⟨samplePlatform.toLowerCase, digest⟩ salt id []
    { name := some "Ana", email := some "ana@x.com", password := some "😀😀😀",
      location := none, phoneNumber := none, role := none } rfl rfl
  exact ⟨_, hc⟩

/-- C16 (amended): creating a user fails with a validation error, which names the path, when
`name`, `email` or `password` is missing or when the plaintext password has fewer than 6 UTF-16
code units (its JavaScript `length`); an input that passes the validators and whose email is
not yet in the collection is created, and the stored email is the lowercased email of the
input and the stored name the trimmed name, as for every user that creation returns. -/
theorem createUser_validates_and_normalises (env : Platform) (salt : String) (id : Nat)
    (db : List User) (input : UserInput) :
    ((input.name = none ∨ input.email = none ∨ input.password = none ∨
        ∃ p, input.password = some p ∧ jsLength p < 6) →
      createUser env salt id db input
        = .error (.validation (validate (newUser env id input))) ∧
      (input.name = none → "name" ∈ validate (newUser env id input)) ∧
      (input.email = none → "email" ∈ validate (newUser env id input)) ∧
      (input.password = none → "password" ∈ validate (newUser env id input)) ∧
      (∀ p, input.password = some p → jsLength p < 6 →
        "password" ∈ validate (newUser env id input))) ∧
    (validate (newUser env id input) = [] →
      db.any (fun u => u.email == (newUser env id input).email) = false →
      ∃ (n e : String) (u : User), input.name = some n ∧ input.email = some e ∧
        createUser env salt id db input = .ok (db ++ [u], u) ∧
        u.name = some (jsTrim n) ∧ u.email = some (env.toLowerCase e)) ∧
    (∀ (db1 : List User) (u : User), createUser env salt id db input = .ok (db1, u) →
      ∃ n e, input.name = some n ∧ input.email = some e ∧
        u.name = some (jsTrim n) ∧ u.email = some (env.toLowerCase e)) := by
  refine ⟨?_, ?_, ?_⟩
  · intro h
    have h1 : input.name = none → "name" ∈ validate (newUser env id input) := by
      intro hn; simp [validate, newUser, hn, requiredOk]
    have h2 : input.email = none → "email" ∈ validate (newUser env id input) := by
      intro hn; simp [validate, newUser, hn, requiredOk]
    have h3 : input.password = none → "password" ∈ validate (newUser env id input) := by
      intro hn; simp [validate, newUser, hn, requiredOk]
    have h4 : ∀ p, input.password = some p → jsLength p < 6 →
        "password" ∈ validate (newUser env id input) := by
      intro p hp hlt
      have : ¬ (6 ≤ jsLength p) := by omega
      simp [validate, newUser, hp, minlengthOk, this]
    refine ⟨?_, h1, h2, h3, h4⟩
    apply createUser_invalid
    rcases h with h | h | h | ⟨p, hp, hlt⟩
    · exact List.ne_nil_of_mem (h1 h)
    · exact List.ne_nil_of_mem (h2 h)
    · exact List.ne_nil_of_mem (h3 h)
    · exact List.ne_nil_of_mem (h4 p hp hlt)
  · intro hvalid hunique
    obtain ⟨n, e, hn, he, hn2, he2⟩ := newUser_name_email env id input hvalid
    obtain ⟨p, _, hc⟩ := createUser_ok env salt id db input hvalid hunique
    exact ⟨n, e, _, hn, he, hc, hn2, he2⟩
  · intro db1 u h
    obtain ⟨hv, p, _, rfl⟩ := createUser_result env salt id db db1 input u h
    obtain ⟨n, e, hn, he, hn2, he2⟩ := newUser_name_email env id input hv
    exact ⟨n, e, hn, he, hn2, he2⟩

theorem createUser_validates_and_normalises_witness :
    (∃ u : User,
      createUser samplePlatform "$2a$10$abcdefghijklmnopqrstuv" 7 []
          { name := some " Ana ", email := some "Ana@X.com", password := some "secret",
            location := none, phoneNumber := none, role := none }
        = .ok ([u], u) ∧ u.name = some "Ana" ∧ u.email = some "ana@x.com") ∧
    createUser samplePlatform "$2a$10$abcdefghijklmnopqrstuv" 7 []
        { name := some " Ana ", email := some "Ana@X.com", password := some "secre",
          location := none, phoneNumber := none, role := none }
      = .error (.validation ["password"]) := by
  obtain ⟨n, e, u, hn, he, hc, hname, hemail⟩ := (createUser_validates_and_normalises
    samplePlatform "$2a$10$abcdefghijklmnopqrstuv" 7 []
    { name := some " Ana ", email := some "Ana@X.com", password := some "secret",
      location := none, phoneNumber := none, role := none }).2.1 (by decide) rfl
  cases hn
  cases he
  have h2 := (createUser_validates_and_normalises samplePlatform
    "$2a$10$abcdefghijklmnopqrstuv" 7 []
    { name := some " Ana ", email := some "Ana@X.com", password := some "secre",
      location := none, phoneNumber := none, role := none }).1
    (Or.inr (Or.inr (Or.inr ⟨"secre", rfl, by decide⟩)))
  refine ⟨⟨u, hc, ?_, ?_⟩, h2.1⟩
  · rw [hname]; decide
  · rw [hemail]; decide

/-- C17: the role of a created user is one of the enumeration `user` (the standard role) and
`admin`; an input that passes the validators and whose email is not yet in the collection is
created with the role it names, and with `user` when it names none; a role outside the
enumeration is rejected by validation. -/
theorem createUser_role_in_enum (env : Platform) (salt : String) (id : Nat)
    (db : List User) (input : UserInput) :
    (∀ (db1 : List User) (u : User), createUser env salt id db input = .ok (db1, u) →
      (u.role = some "user" ∨ u.role = some "admin") ∧
      (input.role = none → u.role = some "user")) ∧
    (validate (newUser env id input) = [] →
      db.any (fun u => u.email == (newUser env id input).email) = false →
      ∃ u : User, createUser env salt id db input = .ok (db ++ [u], u) ∧
        u.role = some (input.role.getD "user") ∧
        (u.role = some "user" ∨ u.role = some "admin") ∧
        (input.role = none → u.role = some "user")) ∧
    (∀ r : String, input.role = some r → r ≠ "user" → r ≠ "admin" →
      createUser env salt id db input
        = .error (.validation (validate (newUser env id input))) ∧
      "role" ∈ validate (newUser env id input)) := by
  have key : validate (newUser env id input) = [] →
      ((newUser env id input).role = some "user" ∨ (newUser env id input).role = some "admin") ∧
      (input.role = none → (newUser env id input).role = some "user") := by
    intro hv
    have hv2 := ((validate_eq_nil_iff _).1 hv).2.2.2.2.2.2
    cases hr : input.role with
    | none => simp [newUser, hr]
    | some r =>
      simp only [newUser, hr, Option.getD_some, enumOk, List.contains_eq_any_beq, List.any_cons,
        List.any_nil, Bool.or_false, Bool.or_eq_true, beq_iff_eq] at hv2
      refine ⟨?_, fun h => by cases h⟩
      rcases hv2 with h | h
      · left; simp [newUser, hr, h]
      · right; simp [newUser, hr, h]
  refine ⟨?_, ?_, ?_⟩
  · intro db1 u h
    obtain ⟨hv, p, _, rfl⟩ := createUser_result env salt id db db1 input u h
    exact key hv
  · intro hvalid hunique
    obtain ⟨p, _, hc⟩ := createUser_ok env salt id db input hvalid hunique
    exact ⟨_, hc, rfl, key hvalid⟩
  · intro r hr h1 h2
    have hm : "role" ∈ validate (newUser env id input) := by
      simp [validate, newUser, hr, enumOk, h1, h2]
    exact ⟨createUser_invalid env salt id db input (List.ne_nil_of_mem hm), hm⟩

theorem createUser_role_in_enum_witness :
    (∃ u : User,
      createUser samplePlatform "$2a$10$abcdefghijklmnopqrstuv" 7 []
          { name := some "Ana", email := some "ana@x.com", password := some "secret1",
            location := none, phoneNumber := none, role := none }
        = .ok ([u], u) ∧ u.role = some "user") ∧
    (∃ u : User,
      createUser samplePlatform "$2a$10$abcdefghijklmnopqrstuv" 8 []
          { name := some "Bo", email := some "bo@x.com", password := some "secret2",
            location := none, phoneNumber := none, role := some "admin" }
        = .ok ([u], u) ∧ u.role = some "admin") ∧
    createUser samplePlatform "$2a$10$abcdefghijklmnopqrstuv" 9 []
        { name := some "Cy", email := some "cy@x.com", password := some "secret3",
          location := none, phoneNumber := none, role := some "root" }
      = .error (.validation ["role"]) := by
  obtain ⟨u, hc, hr, _⟩ := (createUser_role_in_enum samplePlatform
    "$2a$10$abcdefghijklmnopqrstuv" 7 []
    { name := some "Ana", email := some "ana@x.com", password := some "secret1",
      location := none, phoneNumber := none, role := none }).2.1 (by decide) rfl
  obtain ⟨u2, hc2, hr2, _⟩ := (createUser_role_in_enum samplePlatform
    "$2a$10$abcdefghijklmnopqrstuv" 8 []
    { name := some "Bo", email := some "bo@x.com", password := some "secret2",
      location := none, phoneNumber := none, role := some "admin" }).2.1 (by decide) rfl
  have h3 := ((createUser_role_in_enum samplePlatform "$2a$10$abcdefghijklmnopqrstuv" 9 []
    { name := some "Cy", email := some "cy@x.com", password := some "secret3",
      location := none, phoneNumber := none, role := some "root" }).2.2
    "root" rfl (by decide) (by decide)).1
  exact ⟨⟨u, hc, hr⟩, ⟨u2, hc2, hr2⟩, h3⟩

/-! ## The profile route -/

theorem authenticate_minted (sign : TokenClaims → String) (t0 ttl now : Nat) (u : User)
    (hfresh : now < t0 + ttl) :
    authenticate sign now (mintToken sign t0 ttl u) = some { userId := u.id, role := u.role } := by
  simp only [authenticate, mintToken, ne_eq, not_true_eq_false, if_false]
  rw [if_neg (by omega)]

/-- C18: the handler of `GET /api/profile` runs only after `protect` has accepted the token of
the request: without a token, with an expired token or with a token whose signature does not
verify (a minted token whose signature or claims were altered) the response is unauthorized
and the handler is not reached; with a freshly minted token of a stored user the response is
that user's record without the password. -/
theorem profile_requires_valid_token (sign : TokenClaims → String) (now : Nat)
    (db : List User) :
    (∀ req body, profileRoute sign now db req = .json body →
      ∃ token identity, req.token = some token ∧
        authenticate sign now token = some identity ∧
        protect sign now db req = .next body) ∧
    profileRoute sign now db ⟨none⟩ = .unauthorized ∧
    (∀ token, token.claims.expiresAt ≤ now →
      profileRoute sign now db ⟨some token⟩ = .unauthorized) ∧
    (∀ token, token.signature ≠ sign token.claims →
      profileRoute sign now db ⟨some token⟩ = .unauthorized) ∧
    (∀ (t0 ttl : Nat) (u : User) (signature : String),
      signature ≠ (mintToken sign t0 ttl u).signature →
      profileRoute sign now db ⟨some { mintToken sign t0 ttl u with signature := signature }⟩
        = .unauthorized) ∧
    (∀ (t0 ttl : Nat) (u : User) (claims : TokenClaims),
      sign claims ≠ sign (mintToken sign t0 ttl u).claims →
      profileRoute sign now db ⟨some { mintToken sign t0 ttl u with claims := claims }⟩
        = .unauthorized) ∧
    (∀ (t0 ttl : Nat) (u : User),
      now < t0 + ttl → db.find? (fun v => v.id == u.id) = some u →
      profileRoute sign now db ⟨some (mintToken sign t0 ttl u)⟩ = .json u.toPublic ∧
      u.toPublic = { id := u.id, name := u.name, email := u.email, location := u.location,
                     phoneNumber := u.phoneNumber, role := u.role }) := by
  refine ⟨?_, rfl, ?_, ?_, ?_, ?_, ?_⟩
  · intro req body h
    cases ht : req.token with
    | none => simp [profileRoute, protect, ht] at h
    | some token =>
      cases ha : authenticate sign now token with
      | none => simp [profileRoute, protect, ht, ha] at h
      | some identity =>
        refine ⟨token, identity, rfl, ha, ?_⟩
        unfold profileRoute at h
        cases hp : protect sign now db req with
        | unauthorized => rw [hp] at h; cases h
        | next user => rw [hp] at h; cases h; rfl
  · intro token hexp
    have ha : authenticate sign now token = none := by
      unfold authenticate
      split <;> simp [hexp]
    simp only [profileRoute, protect, ha]
  · intro token hsig
    simp only [profileRoute, protect, authenticate]
    rw [if_pos hsig]
  · intro t0 ttl u signature hsig
    simp only [profileRoute, protect, authenticate]
    rw [if_pos (by simpa [mintToken] using hsig)]
  · intro t0 ttl u claims hsig
    simp only [profileRoute, protect, authenticate]
    rw [if_pos (by simpa [mintToken, eq_comm] using hsig)]
  · intro t0 ttl u hfresh hfind
    refine ⟨?_, rfl⟩
    simp only [profileRoute, protect, authenticate_minted sign t0 ttl now u hfresh, hfind]

/-! ## Page context -/

theorem jsIncludes_iff (s sub : String) : jsIncludes s sub = true ↔ sub.data <:+: s.data := by
  simp only [jsIncludes, List.any_eq_true, List.mem_tails, List.isPrefixOf_iff_prefix,
    List.infix_iff_prefix_suffix]
  constructor
  · rintro ⟨t, ht, hp⟩; exact ⟨t, hp, ht⟩
  · rintro ⟨t, hp, ht⟩; exact ⟨t, ht, hp⟩

theorem handleSend_fetch_page (PAGE_CONTEXT now : String) (s : State) (body : Payload)
    (h : Effect.fetch body ∈ (handleSend PAGE_CONTEXT now s).2) : body.page = PAGE_CONTEXT := by
  by_cases hg : s.isLoading = true ∨ jsTrim s.inputValue = ""
  · rw [handleSend_rejected PAGE_CONTEXT now s hg] at h
    simp at h
  · have hidle : s.isLoading = false := by
      cases hl : s.isLoading
      · rfl
      · exact absurd (Or.inl hl) hg
    have ht : jsTrim s.inputValue ≠ "" := fun h0 => hg (Or.inr h0)
    rw [handleSend_accepted PAGE_CONTEXT now s hidle ht] at h
    simp at h
    rw [h]

theorem step_fetch_page (PAGE_CONTEXT : String) (s : State) (e : Event) (body : Payload)
    (h : Effect.fetch body ∈ (step PAGE_CONTEXT s e).2) : body.page = PAGE_CONTEXT := by
  cases e with
  | fabClick now =>
    rcases step_fabClick_effects PAGE_CONTEXT s now with h1 | ⟨h1, _⟩
    · rw [h1] at h; simp at h
    · rw [h1] at h; simp at h
  | fabKeydown key => simp [step] at h
  | closeClick => simp [step] at h
  | documentKeydown key => simp [step] at h
  | sendClick now => exact handleSend_fetch_page PAGE_CONTEXT now s body h
  | inputKeydown key shiftKey now =>
    simp only [step] at h
    split at h
    · exact handleSend_fetch_page PAGE_CONTEXT now s body h
    · simp at h
  | inputEdit value => simp [step] at h
  | settle i r now =>
    simp only [step] at h
    split at h
    · cases hr : sendToAI_result r with
      | ok reply => rw [handleSend_resume_ok now r _ reply hr] at h; simp at h
      | error err => rw [handleSend_resume_error now r _ err hr] at h; simp at h
    · simp at h

theorem trace_fetch_page (PAGE_CONTEXT : String) (es : List Event) :
    ∀ (s : State) (effects : List Effect) (body : Payload),
      effects ∈ trace PAGE_CONTEXT s es → Effect.fetch body ∈ effects →
      body.page = PAGE_CONTEXT := by
  induction es with
  | nil => intro s effects body h; simp [trace] at h
  | cons e es ih =>
    intro s effects body h hb
    simp only [trace, List.mem_cons] at h
    rcases h with rfl | h
    · exact step_fetch_page PAGE_CONTEXT s e body hb
    · exact ih _ effects body h hb

/-- C22: `detectPage` returns `buyer` when the path contains "buyer" (also when it contains
"seller" too), `seller` when it contains "seller" but not "buyer", and `home` otherwise; so
`PAGE_CONTEXT` is one of the three tags, and every chat request of a page session carries it
as its `page`. -/
theorem page_context_is_one_of_three :
    (∀ path : String, "buyer".data <:+: path.data → detectPage path = "buyer") ∧
    (∀ path : String, ¬ "buyer".data <:+: path.data → "seller".data <:+: path.data →
      detectPage path = "seller") ∧
    (∀ path : String, ¬ "buyer".data <:+: path.data → ¬ "seller".data <:+: path.data →
      detectPage path = "home") ∧
    (∀ path : String,
      detectPage path = "buyer" ∨ detectPage path = "seller" ∨ detectPage path = "home") ∧
    (∀ (path : String) (messages : List Message) (inputValue : String) (es : List Event)
        (effects : List Effect) (body : Payload),
      effects ∈ trace (detectPage path) (initialState messages inputValue) es →
      Effect.fetch body ∈ effects →
      body.page = detectPage path ∧
      (body.page = "buyer" ∨ body.page = "seller" ∨ body.page = "home")) := by
  have hthree : ∀ path : String,
      detectPage path = "buyer" ∨ detectPage path = "seller" ∨ detectPage path = "home" := by
    intro path
    unfold detectPage
    split
    · exact Or.inl rfl
    · split
      · exact Or.inr (Or.inl rfl)
      · exact Or.inr (Or.inr rfl)
  refine ⟨?_, ?_, ?_, hthree, ?_⟩
  · intro path h
    simp [detectPage, (jsIncludes_iff path "buyer").2 h]
  · intro path h1 h2
    have e1 : jsIncludes path "buyer" = false := by
      rw [← Bool.not_eq_true, jsIncludes_iff]; exact h1
    simp [detectPage, e1, (jsIncludes_iff path "seller").2 h2]
  · intro path h1 h2
    have e1 : jsIncludes path "buyer" = false := by
      rw [← Bool.not_eq_true, jsIncludes_iff]; exact h1
    have e2 : jsIncludes path "seller" = false := by
      rw [← Bool.not_eq_true, jsIncludes_iff]; exact h2
    simp [detectPage, e1, e2]
  · intro path messages inputValue es effects body h hb
    have hp := trace_fetch_page (detectPage path) es _ effects body h hb
    rw [hp]
    exact ⟨rfl, hthree path⟩

/-! ## `escapeHtml` on other values than strings -/

/-- C23: for every argument `v` that is not a string, `escapeHtml(v)` is `String(v)` with no
escaping applied, so the result can contain the raw characters `<`, `>`, `&`, `"` and `'`: an
array with a string of markup, and an object whose string form is markup, come back as that
markup. -/
theorem escapeHtml_non_string_unescaped (numberToString : JsNumber → String) :
    (∀ v : JsValue, (∀ s, v ≠ .string s) →
      escapeHtmlAny numberToString v = jsString numberToString v) ∧
    escapeHtmlAny numberToString (.array [.string "<a href=\"x\" title='T&C'>"])
      = "<a href=\"x\" title='T&C'>" ∧
    escapeHtmlAny numberToString (.object "<a href=\"x\" title='T&C'>")
      = "<a href=\"x\" title='T&C'>" ∧
    escapeHtmlAny numberToString (.string "<a href=\"x\" title='T&C'>")
      = "&lt;a href=&quot;x&quot; title=&#039;T&amp;C&#039;&gt;" ∧
    (∀ c ∈ ['<', '>', '&', '"', '\''],
      c ∈ (escapeHtmlAny numberToString (.array [.string "<a href=\"x\" title='T&C'>"])).data) := by
  refine ⟨?_, ?_, rfl, ?_, ?_⟩
  · intro v hv
    cases v with
    | string s => exact absurd rfl (hv s)
    | _ => rfl
  · rfl
  · show escapeHtml "<a href=\"x\" title='T&C'>"
      = "&lt;a href=&quot;x&quot; title=&#039;T&amp;C&#039;&gt;"
    decide
  · have h : escapeHtmlAny numberToString (.array [.string "<a href=\"x\" title='T&C'>"])
        = "<a href=\"x\" title='T&C'>" := rfl
    rw [h]
    decide

/-! ## Decoding `escapeHtml` -/

theorem unescape_escaped_char (x : Char) (decoded : List Char) :
    (escapeHtmlChar x).foldr unescapeStep decoded = x :: decoded := by
  unfold escapeHtmlChar
  by_cases h1 : x = '&'
  · subst h1; rfl
  · by_cases h2 : x = '<'
    · subst h2; rfl
    · by_cases h3 : x = '>'
      · subst h3; rfl
      · by_cases h4 : x = '"'
        · subst h4; rfl
        · by_cases h5 : x = '\''
          · subst h5; rfl
          · rw [if_neg h1, if_neg h2, if_neg h3, if_neg h4, if_neg h5]
            show unescapeStep x decoded = x :: decoded
            unfold unescapeStep
            rw [if_neg h1]

theorem unescape_escaped (l : List Char) :
    (l.flatMap escapeHtmlChar).foldr unescapeStep [] = l := by
  induction l with
  | nil => rfl
  | cons x xs ih =>
    rw [List.flatMap_cons, List.foldr_append, ih, unescape_escaped_char]

theorem unescapeHtml_escapeHtml (s : String) : unescapeHtml (escapeHtml s) = s := by
  apply String.ext
  simp only [unescapeHtml, escapeHtml_data]
  exact unescape_escaped s.data

theorem escaped_length_ge (l : List Char) : l.length ≤ (l.flatMap escapeHtmlChar).length := by
  induction l with
  | nil => simp
  | cons x xs ih =>
    rw [List.flatMap_cons, List.length_append, List.length_cons]
    rcases escapeHtmlChar_cases x with ⟨h, _⟩ | ⟨w, h, _⟩
    · rw [h, List.length_singleton]; omega
    · rw [h, List.length_cons]; omega

theorem escaped_length_gt (l : List Char) (h : '&' ∈ l) :
    l.length < (l.flatMap escapeHtmlChar).length := by
  induction l with
  | nil => simp at h
  | cons x xs ih =>
    rw [List.flatMap_cons, List.length_append, List.length_cons]
    have hge := escaped_length_ge xs
    rcases List.mem_cons.1 h with rfl | hm
    · have : (escapeHtmlChar '&').length = 5 := by decide
      omega
    · have := ih hm
      rcases escapeHtmlChar_cases x with ⟨h, _⟩ | ⟨w, h, _⟩
      · rw [h, List.length_singleton]; omega
      · rw [h, List.length_cons]; omega

theorem escaped_has_ampersand (l : List Char)
    (h : ∃ c ∈ l, c = '&' ∨ c = '<' ∨ c = '>' ∨ c = '"' ∨ c = '\'') :
    '&' ∈ l.flatMap escapeHtmlChar := by
  obtain ⟨c, hc, hs⟩ := h
  rw [List.mem_flatMap]
  refine ⟨c, hc, ?_⟩
  rcases hs with rfl | rfl | rfl | rfl | rfl <;> decide

/-- C24: `escapeHtml` is injective on strings: the decoder `unescapeHtml` gives
`unescapeHtml (escapeHtml s) = s` for every string `s`; and `escapeHtml` is not idempotent:
escaping a second time changes the result whenever `s` contains one of the five special
characters (and only then). -/
theorem escapeHtml_injective_not_idempotent :
    (∀ s : String, unescapeHtml (escapeHtml s) = s) ∧
    Function.Injective escapeHtml ∧
    (∀ s : String, (∃ c ∈ s.data, c = '&' ∨ c = '<' ∨ c = '>' ∨ c = '"' ∨ c = '\'') →
      escapeHtml (escapeHtml s) ≠ escapeHtml s) ∧
    (∀ s : String, (∀ c ∈ s.data, c ≠ '&' ∧ c ≠ '<' ∧ c ≠ '>' ∧ c ≠ '"' ∧ c ≠ '\'') →
      escapeHtml (escapeHtml s) = escapeHtml s) ∧
    escapeHtml (escapeHtml "a<b") = "a&amp;lt;b" ∧ escapeHtml "a<b" = "a&lt;b" := by
  refine ⟨unescapeHtml_escapeHtml, ?_, ?_, ?_, by decide, by decide⟩
  · intro a b h
    rw [← unescapeHtml_escapeHtml a, ← unescapeHtml_escapeHtml b, h]
  · intro s hs heq
    have hamp := escaped_has_ampersand s.data hs
    have hlt := escaped_length_gt _ hamp
    have hd := congrArg (fun t : String => t.data.length) heq
    simp only [escapeHtml_data] at hd
    omega
  · intro s hs
    have hplain : escapeHtml s = s := by
      apply String.ext
      rw [escapeHtml_data, escaped_plain s.data hs]
    rw [hplain, hplain]

/-! ## The seller form -/

theorem priceRule_iff (n : JsNumber) :
    ((n.isNaN || n.le 0) = false ∧ n.gt 2000 = false) ↔
      ∃ p : ℚ, n = .finite p ∧ 0 < p ∧ p ≤ 2000 := by
  cases n with
  | nan => simp [JsNumber.isNaN]
  | negInfinity => simp [JsNumber.isNaN, JsNumber.le]
  | posInfinity => simp [JsNumber.isNaN, JsNumber.le, JsNumber.gt]
  | finite q => simp [JsNumber.isNaN, JsNumber.le, JsNumber.gt]

/-- Every element of the form after `validateSellerForm`, and the value returned. -/
theorem validateSellerForm_fields (toNumber : String → JsNumber) (form : SellerForm) :
    (validateSellerForm toNumber form).1.sellerName
      = (if jsTrim form.sellerName.value = "" then
          ⟨form.sellerName.value, true, "Full name is required."⟩
        else ⟨form.sellerName.value, false, ""⟩) ∧
    (validateSellerForm toNumber form).1.sellerLocation
      = (if jsTrim form.sellerLocation.value = "" then
          ⟨form.sellerLocation.value, true, "Location is required."⟩
        else ⟨form.sellerLocation.value, false, ""⟩) ∧
    (validateSellerForm toNumber form).1.productName
      = (if jsTrim form.productName.value = "" then
          ⟨form.productName.value, true, "Product name is required."⟩
        else ⟨form.productName.value, false, ""⟩) ∧
    (validateSellerForm toNumber form).1.pricePerKg
      = (if form.pricePerKg.value = "" then
          ⟨form.pricePerKg.value, true, "Price per kg is required."⟩
        else if ((toNumber form.pricePerKg.value).isNaN
            || (toNumber form.pricePerKg.value).le 0) = true then
          ⟨form.pricePerKg.value, true, "Enter a valid price greater than 0."⟩
        else if (toNumber form.pricePerKg.value).gt 2000 = true then
          ⟨form.pricePerKg.value, true, "Price per kg cannot exceed KES 2,000."⟩
        else ⟨form.pricePerKg.value, false, ""⟩) ∧
    (validateSellerForm toNumber form).1.paymentMethod = form.paymentMethod ∧
    (validateSellerForm toNumber form).1.paymentMethodError
      = (if form.paymentMethod.isNone = true then "Please select a payment method." else "") ∧
    (validateSellerForm toNumber form).2
      = (decide (jsTrim form.sellerName.value ≠ "") &&
          decide (jsTrim form.sellerLocation.value ≠ "") &&
          decide (jsTrim form.productName.value ≠ "") &&
          (decide (form.pricePerKg.value ≠ "") &&
            !((toNumber form.pricePerKg.value).isNaN || (toNumber form.pricePerKg.value).le 0) &&
            !(toNumber form.pricePerKg.value).gt 2000) &&
          form.paymentMethod.isSome) := by
  unfold validateSellerForm
  simp only [clearFieldError, setFieldError]
  by_cases h1 : jsTrim form.sellerName.value = "" <;> (try simp only [h1, if_true, if_false]) <;>
  by_cases h2 : jsTrim form.sellerLocation.value = "" <;> (try simp only [h2, if_true, if_false]) <;>
  by_cases h3 : jsTrim form.productName.value = "" <;> (try simp only [h3, if_true, if_false]) <;>
  by_cases h4 : form.pricePerKg.value = "" <;> (try simp only [h4, if_true, if_false]) <;>
  by_cases h5 : ((toNumber form.pricePerKg.value).isNaN
      || (toNumber form.pricePerKg.value).le 0) = true <;> (try simp only [h5, if_true, if_false]) <;>
  by_cases h6 : (toNumber form.pricePerKg.value).gt 2000 = true <;>
    (try simp only [h6, if_true, if_false]) <;>
  cases h7 : form.paymentMethod <;>
  simp [h1, h2, h3, h4, h5, h6, h7]

theorem validateSellerForm_valid_iff (toNumber : String → JsNumber) (form : SellerForm) :
    (validateSellerForm toNumber form).2 = true ↔
      jsTrim form.sellerName.value ≠ "" ∧ jsTrim form.sellerLocation.value ≠ "" ∧
      jsTrim form.productName.value ≠ "" ∧
      (form.pricePerKg.value ≠ "" ∧
        ∃ p : ℚ, toNumber form.pricePerKg.value = .finite p ∧ 0 < p ∧ p ≤ 2000) ∧
      form.paymentMethod.isSome = true := by
  rw [(validateSellerForm_fields toNumber form).2.2.2.2.2.2, ← priceRule_iff]
  simp only [Bool.and_eq_true, decide_eq_true_eq, Bool.not_eq_true', ne_eq]
  generalize (jsTrim form.sellerName.value = "") = a
  generalize (jsTrim form.sellerLocation.value = "") = b
  generalize (jsTrim form.productName.value = "") = c
  generalize (form.pricePerKg.value = "") = d
  generalize (((toNumber form.pricePerKg.value).isNaN
    || (toNumber form.pricePerKg.value).le 0) = false) = e
  generalize ((toNumber form.pricePerKg.value).gt 2000 = false) = f
  generalize (form.paymentMethod.isSome = true) = g
  tauto

theorem priceMessage_eq (value : String) (price : JsNumber) :
    (if value = "" then (⟨value, true, "Price per kg is required."⟩ : FormField)
      else if (price.isNaN || price.le 0) = true then
        ⟨value, true, "Enter a valid price greater than 0."⟩
      else if price.gt 2000 = true then ⟨value, true, "Price per kg cannot exceed KES 2,000."⟩
      else ⟨value, false, ""⟩).error
      = (if value = "" then "Price per kg is required."
        else if price.isNaN = true ∨ price.le 0 = true then
          "Enter a valid price greater than 0."
        else if price.gt 2000 = true then "Price per kg cannot exceed KES 2,000."
        else "") := by
  by_cases h4 : value = ""
  · simp only [if_pos h4]
  · by_cases h5 : (price.isNaN || price.le 0) = true
    · have h5b : price.isNaN = true ∨ price.le 0 = true := by rwa [Bool.or_eq_true] at h5
      simp only [if_neg h4, if_pos h5, if_pos h5b]
    · have h5b : ¬ (price.isNaN = true ∨ price.le 0 = true) := by rwa [Bool.or_eq_true] at h5
      by_cases h6 : price.gt 2000 = true
      · simp only [if_neg h4, if_neg h5, if_neg h5b, if_pos h6]
      · simp only [if_neg h4, if_neg h5, if_neg h5b, if_neg h6]

theorem priceMessage_empty_iff (value : String) (price : JsNumber) :
    (if value = "" then "Price per kg is required."
        else if price.isNaN = true ∨ price.le 0 = true then
          "Enter a valid price greater than 0."
        else if price.gt 2000 = true then "Price per kg cannot exceed KES 2,000."
        else "") = "" ↔
      (value ≠ "" ∧ ∃ p : ℚ, price = .finite p ∧ 0 < p ∧ p ≤ 2000) := by
  rw [← priceRule_iff]
  by_cases h4 : value = ""
  · simp [h4]
  · cases h5 : price.isNaN <;> cases h5b : price.le 0 <;> cases h6 : price.gt 2000 <;>
      simp [h4]

theorem priceMessage_one_of_three (value : String) (price : JsNumber) :
    (if value = "" then "Price per kg is required."
        else if price.isNaN = true ∨ price.le 0 = true then
          "Enter a valid price greater than 0."
        else if price.gt 2000 = true then "Price per kg cannot exceed KES 2,000."
        else "") ≠ "" →
    (if value = "" then "Price per kg is required."
        else if price.isNaN = true ∨ price.le 0 = true then
          "Enter a valid price greater than 0."
        else if price.gt 2000 = true then "Price per kg cannot exceed KES 2,000."
        else "") = "Price per kg is required." ∨
    (if value = "" then "Price per kg is required."
        else if price.isNaN = true ∨ price.le 0 = true then
          "Enter a valid price greater than 0."
        else if price.gt 2000 = true then "Price per kg cannot exceed KES 2,000."
        else "") = "Enter a valid price greater than 0." ∨
    (if value = "" then "Price per kg is required."
        else if price.isNaN = true ∨ price.le 0 = true then
          "Enter a valid price greater than 0."
        else if price.gt 2000 = true then "Price per kg cannot exceed KES 2,000."
        else "") = "Price per kg cannot exceed KES 2,000." := by
  intro h
  by_cases h4 : value = ""
  · left; rw [if_pos h4]
  · by_cases h5 : price.isNaN = true ∨ price.le 0 = true
    · right; left; rw [if_neg h4, if_pos h5]
    · by_cases h6 : price.gt 2000 = true
      · right; right; rw [if_neg h4, if_neg h5, if_pos h6]
      · rw [if_neg h4, if_neg h5, if_neg h6] at h
        exact absurd rfl h

/-- C21: `validateSellerForm` returns true if and only if name, location and product name are
non-empty after trimming, the price is non-empty with a numeric value `p` such that
`0 < p ≤ 2000`, and a payment method is checked. When it returns, each field carries an error
message exactly when its own rule failed, whatever errors the form showed before, and a price
that fails its rule shows exactly one of the three price messages: the first when it is empty,
the second when its number is `NaN` or at most 0, the third when its number exceeds 2000. -/
theorem validateSellerForm_true_iff (toNumber : String → JsNumber) (form : SellerForm) :
    ((validateSellerForm toNumber form).2 = true ↔
      jsTrim form.sellerName.value ≠ "" ∧ jsTrim form.sellerLocation.value ≠ "" ∧
      jsTrim form.productName.value ≠ "" ∧
      (form.pricePerKg.value ≠ "" ∧
        ∃ p : ℚ, toNumber form.pricePerKg.value = .finite p ∧ 0 < p ∧ p ≤ 2000) ∧
      form.paymentMethod.isSome = true) ∧
    ((validateSellerForm toNumber form).1.sellerName.error
        = (if jsTrim form.sellerName.value = "" then "Full name is required." else "")) ∧
    ((validateSellerForm toNumber form).1.sellerLocation.error
        = (if jsTrim form.sellerLocation.value = "" then "Location is required." else "")) ∧
    ((validateSellerForm toNumber form).1.productName.error
        = (if jsTrim form.productName.value = "" then "Product name is required." else "")) ∧
    ((validateSellerForm toNumber form).1.paymentMethodError
        = (if form.paymentMethod = none then "Please select a payment method." else "")) ∧
    ((validateSellerForm toNumber form).1.pricePerKg.error
        = (if form.pricePerKg.value = "" then "Price per kg is required."
          else if (toNumber form.pricePerKg.value).isNaN = true
              ∨ (toNumber form.pricePerKg.value).le 0 = true then
            "Enter a valid price greater than 0."
          else if (toNumber form.pricePerKg.value).gt 2000 = true then
            "Price per kg cannot exceed KES 2,000."
          else "")) ∧
    ((validateSellerForm toNumber form).1.pricePerKg.error = "" ↔
      (form.pricePerKg.value ≠ "" ∧
        ∃ p : ℚ, toNumber form.pricePerKg.value = .finite p ∧ 0 < p ∧ p ≤ 2000)) ∧
    ((validateSellerForm toNumber form).1.pricePerKg.error ≠ "" →
      ((validateSellerForm toNumber form).1.pricePerKg.error = "Price per kg is required." ∨
        (validateSellerForm toNumber form).1.pricePerKg.error
          = "Enter a valid price greater than 0." ∨
        (validateSellerForm toNumber form).1.pricePerKg.error
          = "Price per kg cannot exceed KES 2,000.")) := by
  have hfields := validateSellerForm_fields toNumber form
  have herr : (validateSellerForm toNumber form).1.pricePerKg.error
      = (if form.pricePerKg.value = "" then "Price per kg is required."
        else if (toNumber form.pricePerKg.value).isNaN = true
            ∨ (toNumber form.pricePerKg.value).le 0 = true then
          "Enter a valid price greater than 0."
        else if (toNumber form.pricePerKg.value).gt 2000 = true then
          "Price per kg cannot exceed KES 2,000."
        else "") := by
    rw [hfields.2.2.2.1]
    exact priceMessage_eq _ _
  refine ⟨validateSellerForm_valid_iff toNumber form, ?_, ?_, ?_, ?_, herr, ?_, ?_⟩
  · rw [hfields.1]; split <;> rfl
  · rw [hfields.2.1]; split <;> rfl
  · rw [hfields.2.2.1]; split <;> rfl
  · rw [hfields.2.2.2.2.2.1]; cases form.paymentMethod <;> rfl
  · rw [herr]; exact priceMessage_empty_iff _ _
  · rw [herr]; exact priceMessage_one_of_three _ _

theorem validateSellerForm_true_iff_witness :
    (validateSellerForm sampleToNumber
      ⟨⟨" Ana ", true, "Full name is required."⟩, ⟨"Kiambu", false, ""⟩, ⟨"Mango", false, ""⟩,
        ⟨"1500", true, "Price per kg is required."⟩, some "mpesa",
        "Please select a payment method."⟩).2 = true ∧
    validateSellerForm sampleToNumber
      ⟨⟨" Ana ", true, "Full name is required."⟩, ⟨"  ", false, ""⟩, ⟨"Mango", false, ""⟩,
        ⟨"2500", false, ""⟩, none, ""⟩
      = (⟨⟨" Ana ", false, ""⟩, ⟨"  ", true, "Location is required."⟩, ⟨"Mango", false, ""⟩,
          ⟨"2500", true, "Price per kg cannot exceed KES 2,000."⟩, none,
          "Please select a payment method."⟩, false) := by
  refine ⟨?_, by decide⟩
  exact (validateSellerForm_true_iff sampleToNumber _).1.2
    ⟨by decide, by decide, by decide, ⟨by decide, 1500, by decide, by norm_num, by norm_num⟩, rfl⟩

end Fruittie
